import Mathlib

/-!
Verification of the WiiU-CDN-download manifest-parsing-and-sync pipeline.

The repository consists of two near-duplicate driver scripts, `CDN.py` and
`nus.py`.  This development gives a shallow embedding of both where they
differ, and of their shared parts once:

* byte buffers are `List Nat` (each element a byte value `< 256`);
* Python `int.from_bytes(_, "big")` is `beBytes`, `bytes.hex()` is `bytesHex`;
* `hashlib.sha256(...).hexdigest()` is modelled by a full executable
  implementation of FIPS 180-4 SHA-256 (`sha256_hash`), the algorithm that
  library implements;
* the local filesystem is an association list from path to contents, and
  the network is an oracle `String → HttpResult` inside an `Env` record.
-/

namespace WiiUCDN

/-- A byte buffer: the contents of a Python `bytes` object.  Each element is
a byte value (`< 256`); the definitions below are total on all of `Nat` but
are only meant at byte values. -/
abbrev ByteBuf := List Nat

/-- Python slicing `raw[a:b]` (clamping at the ends, as Python does). -/
def sliceBytes (raw : ByteBuf) (a b : Nat) : ByteBuf :=
  (raw.drop a).take (b - a)

/-- Python `int.from_bytes(l, "big")`. -/
def beBytes (l : ByteBuf) : Nat :=
  l.foldl (fun acc b => acc * 256 + b) 0

/-- One lowercase hexadecimal digit, as produced by Python's `bytes.hex()`
and `hexdigest()` (both emit lowercase). -/
def hexDigitChar (n : Nat) : Char :=
  let m := n % 16
  if m < 10 then Char.ofNat (48 + m) else Char.ofNat (87 + m)

/-- The two lowercase hex digits of one byte. -/
def byteHex (b : Nat) : String :=
  String.mk [hexDigitChar (b / 16), hexDigitChar b]

/-- Python `bytes.hex()`: lowercase hex of a byte buffer. -/
def bytesHex (l : ByteBuf) : String :=
  String.join (l.map byteHex)

/-! ## SHA-256 (the algorithm implemented by `hashlib.sha256`)

`sha256_hash` in both scripts streams a file through `hashlib.sha256` in
8192-byte chunks and returns `hexdigest()`.  Chunking does not change the
digest, so the model takes the whole file contents at once. -/

/-- Truncation to a 32-bit word. -/
def w32 (n : Nat) : Nat := n % 4294967296

/-- 32-bit right rotation (argument assumed `< 2^32`). -/
def rotr (n x : Nat) : Nat :=
  w32 (Nat.lor (x >>> n) (x <<< (32 - n)))

/-- 32-bit bitwise complement (argument assumed `< 2^32`). -/
def bnot32 (x : Nat) : Nat := Nat.xor x 4294967295

def shaCh (e f g : Nat) : Nat := Nat.xor (Nat.land e f) (Nat.land (bnot32 e) g)

def shaMaj (a b c : Nat) : Nat :=
  Nat.xor (Nat.xor (Nat.land a b) (Nat.land a c)) (Nat.land b c)

def bigSigma0 (a : Nat) : Nat := Nat.xor (Nat.xor (rotr 2 a) (rotr 13 a)) (rotr 22 a)
def bigSigma1 (e : Nat) : Nat := Nat.xor (Nat.xor (rotr 6 e) (rotr 11 e)) (rotr 25 e)
def smallSigma0 (x : Nat) : Nat := Nat.xor (Nat.xor (rotr 7 x) (rotr 18 x)) (x >>> 3)
def smallSigma1 (x : Nat) : Nat := Nat.xor (Nat.xor (rotr 17 x) (rotr 19 x)) (x >>> 10)

/-- The 64 SHA-256 round constants (decimal). -/
def shaK : List Nat :=
  [1116352408, 1899447441, 3049323471, 3921009573,
   961987163, 1508970993, 2453635748, 2870763221,
   3624381080, 310598401, 607225278, 1426881987,
   1925078388, 2162078206, 2614888103, 3248222580,
   3835390401, 4022224774, 264347078, 604807628,
   770255983, 1249150122, 1555081692, 1996064986,
   2554220882, 2821834349, 2952996808, 3210313671,
   3336571891, 3584528711, 113926993, 338241895,
   666307205, 773529912, 1294757372, 1396182291,
   1695183700, 1986661051, 2177026350, 2456956037,
   2730485921, 2820302411, 3259730800, 3345764771,
   3516065817, 3600352804, 4094571909, 275423344,
   430227734, 506948616, 659060556, 883997877,
   958139571, 1322822218, 1537002063, 1747873779,
   1955562222, 2024104815, 2227730452, 2361852424,
   2428436474, 2756734187, 3204031479, 3329325298]

/-- Big-endian encoding of `n` into `k` bytes. -/
def beBytesOfNat : Nat → Nat → ByteBuf
  | 0, _ => []
  | k + 1, n => beBytesOfNat k (n / 256) ++ [n % 256]

/-- SHA-256 message padding: `0x80`, zeros to 56 mod 64, then the bit length
as 8 big-endian bytes. -/
def sha256Pad (msg : ByteBuf) : ByteBuf :=
  msg ++ [0x80] ++ List.replicate ((119 - msg.length % 64) % 64) 0
      ++ beBytesOfNat 8 (8 * msg.length)

/-- Split a buffer into 64-byte blocks (structural recursion on a fuel
bound so the definition reduces in the kernel; each step consumes 64 bytes,
so `fuel := l.length` is always enough). -/
def toBlocksAux : Nat → ByteBuf → List ByteBuf
  | _, [] => []
  | 0, _ :: _ => []
  | fuel + 1, b :: l => ((b :: l).take 64) :: toBlocksAux fuel ((b :: l).drop 64)

/-- Split a buffer into 64-byte blocks. -/
def toBlocks (l : ByteBuf) : List ByteBuf :=
  toBlocksAux l.length l

/-- The running hash state: eight 32-bit words. -/
structure Hash8 where
  a : Nat
  b : Nat
  c : Nat
  d : Nat
  e : Nat
  f : Nat
  g : Nat
  h : Nat
deriving Repr, DecidableEq

/-- SHA-256 initial hash value (decimal). -/
def shaH0 : Hash8 :=
  ⟨1779033703, 3144134277, 1013904242, 2773480762,
   1359893119, 2600822924, 528734635, 1541459225⟩

/-- The first 16 words of the message schedule of one block. -/
def blockWords (block : ByteBuf) : List Nat :=
  (List.range 16).map (fun i => beBytes (sliceBytes block (4 * i) (4 * i + 4)))

/-- Extend the (reversed, newest-first) message schedule by `n` words. -/
def extendW (rws : List Nat) : Nat → List Nat
  | 0 => rws
  | n + 1 =>
    extendW (w32 (smallSigma1 (rws.getD 1 0) + rws.getD 6 0
                  + smallSigma0 (rws.getD 14 0) + rws.getD 15 0) :: rws) n

/-- One round of the SHA-256 compression function; `wk` is `(Wt, Kt)`. -/
def compressStep (st : Hash8) (wk : Nat × Nat) : Hash8 :=
  let t1 := w32 (st.h + bigSigma1 st.e + shaCh st.e st.f st.g + wk.2 + wk.1)
  let t2 := w32 (bigSigma0 st.a + shaMaj st.a st.b st.c)
  ⟨w32 (t1 + t2), st.a, st.b, st.c, w32 (st.d + t1), st.e, st.f, st.g⟩

/-- Process one 64-byte block. -/
def processBlock (hs : Hash8) (block : ByteBuf) : Hash8 :=
  let W := (extendW (blockWords block).reverse 48).reverse
  let st := (W.zip shaK).foldl compressStep hs
  ⟨w32 (hs.a + st.a), w32 (hs.b + st.b), w32 (hs.c + st.c), w32 (hs.d + st.d),
   w32 (hs.e + st.e), w32 (hs.f + st.f), w32 (hs.g + st.g), w32 (hs.h + st.h)⟩

/-- The 8 lowercase hex digits of one 32-bit word. -/
def wordHex (w : Nat) : String :=
  String.mk [hexDigitChar (w / 0x10000000), hexDigitChar (w / 0x1000000),
             hexDigitChar (w / 0x100000), hexDigitChar (w / 0x10000),
             hexDigitChar (w / 0x1000), hexDigitChar (w / 0x100),
             hexDigitChar (w / 0x10), hexDigitChar w]

/-- `sha256_hash` from `CDN.py` / `nus.py`: stream the file's contents
through SHA-256 and return the lowercase hex digest.  The model takes the
file contents directly (the 8192-byte read loop does not affect the
digest). -/
def sha256_hash (data : ByteBuf) : String :=
  let hs := (toBlocks (sha256Pad data)).foldl processBlock shaH0
  wordHex hs.a ++ wordHex hs.b ++ wordHex hs.c ++ wordHex hs.d ++
  wordHex hs.e ++ wordHex hs.f ++ wordHex hs.g ++ wordHex hs.h

/-! ## Filesystem and network model

The local filesystem is an association list from path to file contents.
The network (`requests.get`) and the fallible OS operations
(`open(..., "wb")`, `os.remove`) are oracles collected in an `Env`. -/

/-- A filesystem: association list from path to contents (newest first). -/
abbrev FS := List (String × ByteBuf)

/-- The contents of the file at `p`, if it exists. -/
def fsLookup (fs : FS) (p : String) : Option ByteBuf :=
  (fs.find? (fun q => q.1 == p)).map Prod.snd

/-- `os.path.exists` / `os.path.isfile`. -/
def fsExists (fs : FS) (p : String) : Bool :=
  (fsLookup fs p).isSome

/-- Read the whole file at `p` (defaults to empty; only used on paths that
exist). -/
def fsRead (fs : FS) (p : String) : ByteBuf :=
  (fsLookup fs p).getD []

/-- `open(p, "wb")` followed by writing `d`: create or overwrite. -/
def fsWrite (fs : FS) (p : String) (d : ByteBuf) : FS :=
  (p, d) :: fs.filter (fun q => !(q.1 == p))

/-- `os.remove p`. -/
def fsRemove (fs : FS) (p : String) : FS :=
  fs.filter (fun q => !(q.1 == p))

/-- `os.path.join` (the happy path: no absolute second component). -/
def pathJoin (dir name : String) : String := dir ++ "/" ++ name

/-- The outcome of one `requests.get`: either an HTTP response (status code
and body) or a raised transport-level exception. -/
inductive HttpResult where
  | response (status : Nat) (body : ByteBuf)
  | transportError
deriving Repr, DecidableEq

/-- The external world: the network oracle and the fallible local-OS
operations.  `writeFails p` means `open(p, "wb")` raises; `removeFails p`
means `os.remove(p)` raises. -/
structure Env where
  net : String → HttpResult
  writeFails : String → Bool
  removeFails : String → Bool

/-- `download_file_with_progress` from `CDN.py` / `nus.py`: a 404 logs a
warning and returns `False`; any other 4xx/5xx makes `raise_for_status`
raise, any transport error raises, and a failing local `open` raises — all
caught by the blanket `except`, which logs and returns `False`.  On success
the body is streamed to `filename` and `True` is returned.  (Progress bar
and telemetry are side channels with no modelled effect.) -/
def download_file_with_progress (env : Env) (url : String) (filename : String)
    (fs : FS) : Bool × FS :=
  match env.net url with
  | .transportError => (false, fs)
  | .response status body =>
    if status = 404 then (false, fs)
    else if 400 ≤ status ∧ status < 600 then (false, fs)
    else if env.writeFails filename then (false, fs)
    else (true, fsWrite fs filename body)

def BASE_NUS_URL : String := "http://ccs.cdn.wup.shop.nintendo.net/ccs/download/"

/-- `fetch_tmd`: `None` on 404, `None` on any raised `RequestException`
(which includes the `raise_for_status` error), the body otherwise. -/
def fetch_tmd (env : Env) (title_id : String) : Option ByteBuf :=
  match env.net (BASE_NUS_URL ++ title_id ++ "/tmd") with
  | .transportError => none
  | .response status body =>
    if status = 404 then none
    else if 400 ≤ status ∧ status < 600 then none
    else some body

/-! ## The manifest parsers -/

/-- One parsed TMD content record (`entries.append({...})`). -/
structure ContentEntry where
  index : Nat
  content_id : String
  size : Nat
  hash : String
deriving Repr, DecidableEq

/-- Decoding of the 0x30-byte record at `offset`: 4-byte id (lowercase
hex), big-endian 2-byte index at `offset+4`, big-endian 8-byte size at
`offset+8`, and the 32-byte digest at `offset+0x10`..`offset+0x30` (both
scripts use identical slices). -/
def decodeRecord (raw : ByteBuf) (offset : Nat) : ContentEntry :=
  { content_id := bytesHex (sliceBytes raw offset (offset + 4)),
    index := beBytes (sliceBytes raw (offset + 4) (offset + 6)),
    size := beBytes (sliceBytes raw (offset + 8) (offset + 16)),
    hash := bytesHex (sliceBytes raw (offset + 0x10) (offset + 0x30)) }

/-- The record loop of `CDN.py`'s `parse_tmd`: `rem` iterations remain,
`i` is the current record number, `seen` the accepted ids.  A record that
does not fit in the buffer breaks the loop; padding records, zero/oversize
sizes and duplicate ids are skipped. -/
def cdnLoop (raw : ByteBuf) : Nat → Nat → List String → List ContentEntry
  | 0, _, _ => []
  | rem + 1, i, seen =>
    let offset := 0xB04 + i * 0x30
    if raw.length < offset + 0x30 then []
    else
      let e := decodeRecord raw offset
      if e.content_id = "00000000" ∧ e.size = 0 then cdnLoop raw rem (i + 1) seen
      else if e.size = 0 ∨ e.size > 8 * 1024 * 1024 * 1024 then cdnLoop raw rem (i + 1) seen
      else if e.content_id ∈ seen then cdnLoop raw rem (i + 1) seen
      else e :: cdnLoop raw rem (i + 1) (e.content_id :: seen)

/-- `parse_tmd` from `CDN.py`: error on a buffer shorter than `0xB04`,
otherwise run the record loop for `content_count` records, where the count
is the big-endian 2-byte field at `0x9E`. -/
def parse_tmd (raw : ByteBuf) : Except String (List ContentEntry) :=
  if raw.length < 0xB04 then .error "TMD too short or malformed (header too small)"
  else .ok (cdnLoop raw (beBytes (sliceBytes raw 0x9E 0xA0)) 0 [])

/-- Reference loop for the truncation claim: identical to `cdnLoop` but
with no truncation break, to be run on exactly the records that fully fit
in the buffer. -/
def cdnLoopNoBreak (raw : ByteBuf) : Nat → Nat → List String → List ContentEntry
  | 0, _, _ => []
  | rem + 1, i, seen =>
    let offset := 0xB04 + i * 0x30
    let e := decodeRecord raw offset
    if e.content_id = "00000000" ∧ e.size = 0 then cdnLoopNoBreak raw rem (i + 1) seen
    else if e.size = 0 ∨ e.size > 8 * 1024 * 1024 * 1024 then cdnLoopNoBreak raw rem (i + 1) seen
    else if e.content_id ∈ seen then cdnLoopNoBreak raw rem (i + 1) seen
    else e :: cdnLoopNoBreak raw rem (i + 1) (e.content_id :: seen)

/-- The record loop of `nus.py`'s `parse_tmd`: same offsets and truncation
break, but no filtering of any kind. -/
def nusLoop (raw : ByteBuf) : Nat → Nat → List ContentEntry
  | 0, _ => []
  | rem + 1, i =>
    let offset := 0xB04 + i * 0x30
    if raw.length < offset + 0x30 then []
    else decodeRecord raw offset :: nusLoop raw rem (i + 1)

/-- `parse_tmd` from `nus.py`. -/
def nus_parse_tmd (raw : ByteBuf) : Except String (List ContentEntry) :=
  if raw.length < 0xB04 then .error "TMD too short or malformed (header too small)"
  else .ok (nusLoop raw (beBytes (sliceBytes raw 0x9E 0xA0)) 0)

/-- The number of records that fully fit in the buffer from record `i`
on (a record is 0x30 bytes; the table starts at `0xB04`). -/
def recordsFitFrom (raw : ByteBuf) (i : Nat) : Nat :=
  (raw.length - (0xB04 + i * 0x30)) / 0x30

/-! ## `process_content` -/

/-- The `.app`-file part of `CDN.py`'s `process_content` (returns the app
status and the filesystem after this part). -/
def pcAppPhase (env : Env) (entry : ContentEntry) (url filename : String)
    (force nohash : Bool) (fs : FS) : String × FS :=
  if fsExists fs filename ∧ ¬force then
    if ¬nohash then
      if sha256_hash (fsRead fs filename) = entry.hash then ("skipped", fs)
      else ("hash_fail", fs)
    else ("skipped", fs)
  else
    let dl := download_file_with_progress env url filename fs
    if ¬dl.1 then ("failed", dl.2)
    else if ¬nohash then
      if sha256_hash (fsRead dl.2 filename) ≠ entry.hash then
        ("hash_fail", if env.removeFails filename then dl.2 else fsRemove dl.2 filename)
      else ("ok", dl.2)
    else ("ok", dl.2)

/-- The optional `.h3` side-file part of `CDN.py`'s `process_content`. -/
def pcH3Phase (env : Env) (content_id base_url title_id download_dir : String)
    (force download_h3 : Bool) (fs : FS) : String × FS :=
  if download_h3 then
    let h3_url := base_url ++ content_id ++ ".h3"
    let h3_filename := pathJoin download_dir (title_id ++ "_" ++ content_id ++ ".h3")
    if ¬fsExists fs h3_filename ∨ force then
      let dl := download_file_with_progress env h3_url h3_filename fs
      (if dl.1 then "ok" else "failed", dl.2)
    else ("skipped", fs)
  else ("not_attempted", fs)

/-- The result tuple of `CDN.py`'s `process_content`. -/
structure PCResult where
  content_id : String
  app_status : String
  filename : String
  h3_status : String
deriving Repr, DecidableEq

/-- `process_content` from `CDN.py`: the `.app` handling followed by the
optional `.h3` handling, returning
`(content_id, app_status, filename, h3_status)`. -/
def process_content (env : Env) (entry : ContentEntry)
    (base_url title_id download_dir : String) (force nohash download_h3 : Bool)
    (fs : FS) : PCResult × FS :=
  let content_id := entry.content_id
  let url := base_url ++ content_id
  let filename := pathJoin download_dir (content_id ++ ".app")
  let ap := pcAppPhase env entry url filename force nohash fs
  let h3 := pcH3Phase env content_id base_url title_id download_dir force download_h3 ap.2
  (⟨content_id, ap.1, filename, h3.1⟩, h3.2)

/-- The download-and-verify part of `nus.py`'s `process_content` (the code
reached when the early `skipped` returns do not fire). -/
def nus_pc_download (env : Env) (entry : ContentEntry)
    (content_id url filename : String) (nohash : Bool) (fs : FS) :
    (String × String × String) × FS :=
  let dl := download_file_with_progress env url filename fs
  if ¬dl.1 then ((content_id, "failed", filename), dl.2)
  else if ¬nohash then
    if sha256_hash (fsRead dl.2 filename) ≠ entry.hash then
      ((content_id, "hash_fail", filename),
       if env.removeFails filename then dl.2 else fsRemove dl.2 filename)
    else ((content_id, "ok", filename), dl.2)
  else ((content_id, "ok", filename), dl.2)

/-- `process_content` from `nus.py`.  Note the control flow: for a
pre-existing file with a digest mismatch, no `return` fires in the
existence branch and execution falls through to the download. -/
def nus_process_content (env : Env) (entry : ContentEntry)
    (base_url title_id download_dir : String) (force nohash : Bool) (fs : FS) :
    (String × String × String) × FS :=
  let content_id := entry.content_id
  let url := base_url ++ content_id
  let filename := pathJoin download_dir (title_id ++ "_" ++ content_id ++ ".app")
  if fsExists fs filename ∧ ¬force then
    if ¬nohash then
      if sha256_hash (fsRead fs filename) = entry.hash then
        ((content_id, "skipped", filename), fs)
      else nus_pc_download env entry content_id url filename nohash fs
    else ((content_id, "skipped", filename), fs)
  else nus_pc_download env entry content_id url filename nohash fs

/-! ## Outcome aggregation (`main` in `CDN.py`) -/

/-- The four `.app` outcome categories counted by the `stats` dict. -/
def appStatusKeys : List String := ["ok", "failed", "skipped", "hash_fail"]

/-- `TitleStats` modelled as a total function from key to count.  The
Python dict starts with seven fixed keys at 0; on every reachable trace
only those keys are incremented (see the status-membership lemmas), so the
function model agrees with the dict wherever the dict is defined. -/
abbrev TitleStats := String → Nat

def stats0 : TitleStats := fun _ => 0

/-- `stats[k] += 1`. -/
def statInc (d : TitleStats) (k : String) : TitleStats :=
  fun q => if q = k then d q + 1 else d q

/-- One iteration of the `as_completed` collection loop in `CDN.py`'s
`main`: `stats[app_status] += 1`, then, when `--h3` was given and the
side-file status is one of `ok`/`failed`/`skipped`,
`stats["h3_" + h3_status] += 1`. -/
def collectStep (h3flag : Bool) (d : TitleStats) (r : PCResult) : TitleStats :=
  let d1 := statInc d r.app_status
  if h3flag ∧ r.h3_status ∈ (["ok", "failed", "skipped"] : List String) then
    statInc d1 ("h3_" ++ r.h3_status)
  else d1

/-- Folding the collection loop over the outcomes in the order in which the
futures complete. -/
def collectStats (h3flag : Bool) (rs : List PCResult) : TitleStats :=
  rs.foldl (collectStep h3flag) stats0

/-- The sum of the four `.app` outcome counters. -/
def appStatusSum (d : TitleStats) : Nat :=
  d "ok" + d "failed" + d "skipped" + d "hash_fail"

/-! ## `organize_files` (`CDN.py` only) -/

/-- Python `str.endswith`. -/
def strEndsWith (s suffix : String) : Bool :=
  decide (suffix.data <:+ s.data)

/-- Lowercasing of an ASCII letter. -/
def charLowerAscii (c : Char) : Char :=
  if 'A' ≤ c ∧ c ≤ 'Z' then Char.ofNat (c.toNat + 32) else c

/-- Python `str.lower()` (on the ASCII range used by title ids and hex
digests).  Defined by structural recursion over the character list so it
evaluates in the kernel. -/
def strLower (s : String) : String :=
  String.mk (s.data.map charLowerAscii)

/-- ASCII case-folding for stating case-insensitive hex comparison (the
notion used by the claim about digest matching): two hex strings denote the
same digest regardless of letter case iff their case-folds are equal. -/
def hexCaseFold (s : String) : String :=
  String.mk (s.data.map charLowerAscii)

/-- The three directories `organize_files` touches: the flat download
directory, the per-title subdirectory `download_dir/title_id.lower()`, and
the caller-provided ticket directory.  Files are keyed by their name within
the directory. -/
structure OrgState where
  downloads : FS
  sub : FS
  tickets : FS
deriving Repr, DecidableEq

/-- `organize_files` from `CDN.py`: create the subdirectory, move every
`.app`/`.h3` file there, move `{title_id}_tmd` there under the name
`title.tmd` if present, copy `{title_id.lower()}.tik` from the ticket
directory if present (printing a message either way, never raising), and
return `os.path.isfile(tik_dst)`. -/
def organize_files (title_id : String) (st : OrgState) : Bool × OrgState :=
  let title_id_lower := strLower title_id
  -- Move all .app and .h3 files to the title subfolder
  let movers := st.downloads.filter
    (fun p => strEndsWith p.1 ".app" || strEndsWith p.1 ".h3")
  let downloads := st.downloads.filter
    (fun p => !(strEndsWith p.1 ".app" || strEndsWith p.1 ".h3"))
  let sub := movers.foldl (fun s p => fsWrite s p.1 p.2) st.sub
  -- Move TMD file if present (its name `{title_id}_tmd` never ends in
  -- .app/.h3, so looking it up after the moves equals looking it up before)
  let tmdStep :=
    match fsLookup downloads (title_id ++ "_tmd") with
    | some d => (fsRemove downloads (title_id ++ "_tmd"), fsWrite sub "title.tmd" d)
    | none => (downloads, sub)
  -- Copy the .tik file from the ticket folder (if it exists)
  let tik_name := title_id_lower ++ ".tik"
  let sub2 :=
    match fsLookup st.tickets tik_name with
    | some d => fsWrite tmdStep.2 tik_name d
    | none => tmdStep.2
  -- Return True if the ticket was copied, else False
  (fsExists sub2 tik_name, ⟨tmdStep.1, sub2, st.tickets⟩)

/-! ## Concrete fixtures (manifests, environments, filesystems)

Used by the witness and counterexample theorems below. -/

/-- A manifest declaring 2 records, both all-zero (padding). -/
def dupTmd : ByteBuf :=
  List.replicate 0x9E 0 ++ [0, 2] ++ List.replicate (0xB04 - 0xA0) 0
    ++ List.replicate 0x60 0

/-- One well-formed record: id `00000001`, index 1, type bytes 0, size 1,
digest bytes all `0xAB`. -/
def sampleRecord : ByteBuf :=
  [0, 0, 0, 1, 0, 1, 0, 0] ++ [0, 0, 0, 0, 0, 0, 0, 1] ++ List.replicate 32 0xAB

/-- A record with a nonzero id and size 0 (dropped by the corrupt-size
guard). -/
def badSizeRecord : ByteBuf :=
  [0, 0, 0, 2, 0, 2, 0, 0] ++ List.replicate 8 0 ++ List.replicate 32 0xCD

/-- A manifest declaring 1 record, with exactly that record present. -/
def oneRecTmd : ByteBuf :=
  List.replicate 0x9E 0 ++ [0, 1] ++ List.replicate (0xB04 - 0xA0) 0 ++ sampleRecord

/-- A manifest declaring 2 records but truncated after the first. -/
def truncTmd : ByteBuf :=
  List.replicate 0x9E 0 ++ [0, 2] ++ List.replicate (0xB04 - 0xA0) 0 ++ sampleRecord

/-- A manifest declaring 3 records: a good one, a duplicate of it, and a
zero-size one. -/
def filtTmd : ByteBuf :=
  List.replicate 0x9E 0 ++ [0, 3] ++ List.replicate (0xB04 - 0xA0) 0
    ++ sampleRecord ++ sampleRecord ++ badSizeRecord

/-- The digest hex of 32 `0xAB` bytes. -/
def hash64ab : String :=
  "abababababababababababababababababababababababababababababababab"

/-- The decoding of `sampleRecord`. -/
def sampleEntry : ContentEntry := ⟨1, "00000001", 1, hash64ab⟩

/-- The digest hex of 32 zero bytes. -/
def hash64zero : String :=
  "0000000000000000000000000000000000000000000000000000000000000000"

/-- The digest hex of 32 `0xCD` bytes. -/
def hash64cd : String :=
  "cdcdcdcdcdcdcdcdcdcdcdcdcdcdcdcdcdcdcdcdcdcdcdcdcdcdcdcdcdcdcdcd"

/-- The decoding of an all-zero record. -/
def zeroEntry : ContentEntry := ⟨0, "00000000", 0, hash64zero⟩

/-- The decoding of `badSizeRecord`. -/
def badEntry : ContentEntry := ⟨2, "00000002", 0, hash64cd⟩

/-- A manifest whose count field at `0x9E` encodes 1 while the two bytes
immediately preceding the record table (at `0xB02`) encode 5, with room for
all five 0x30-byte records after the table base — so no truncation break
can fire, and the number of returned records reveals which field the
parser reads as the count. -/
def c4Tmd : ByteBuf :=
  List.replicate 0x9E 0 ++ [0, 1] ++ List.replicate (0xB02 - 0xA0) 0 ++ [0, 5]
    ++ List.replicate (5 * 0x30) 0

/-- A network that answers every request with 404. -/
def env404 : Env := ⟨fun _ => HttpResult.response 404 [], fun _ => false, fun _ => false⟩

/-- A network on which every request raises a transport error. -/
def envErr : Env := ⟨fun _ => HttpResult.transportError, fun _ => false, fun _ => false⟩

/-- A network that answers every request with status 200 and body `[1]`. -/
def envOk1 : Env := ⟨fun _ => HttpResult.response 200 [1], fun _ => false, fun _ => false⟩

/-- A descriptor whose expected digest matches no file. -/
def entMismatch : ContentEntry := ⟨0, "ab", 1, "zz"⟩

/-- A pre-existing (empty) `.app` file under `CDN.py`'s naming scheme. -/
def fsPre : FS := [("d/ab.app", [])]

/-- A pre-existing (empty) `.app` file under `nus.py`'s naming scheme. -/
def fsPreNus : FS := [("d/t_ab.app", [])]

/-- A descriptor whose expected digest is the UPPERCASE hex of the digest
of the empty file. -/
def entC8 : ContentEntry :=
  ⟨0, "ab", 1, "E3B0C44298FC1C149AFBF4C8996FB92427AE41E4649B934CA495991B7852B855"⟩

/-- The title id used by the organizer fixtures. -/
def titleAB : String := "AB"

/-- Organizer state: empty ticket directory, but the subdirectory already
holds a file named `ab.tik`. -/
def stC9 : OrgState := ⟨[], [("ab.tik", [1])], []⟩

/-- Organizer state: one `.app` download and a ticket `ab.tik` present in
the ticket directory. -/
def stC9W : OrgState := ⟨[("x.app", [2])], [], [("ab.tik", [9])]⟩

end WiiUCDN

namespace WiiUCDN

/-! ## Filesystem lemmas -/

theorem fsLookup_cons (a : String × ByteBuf) (fs : FS) (q : String) :
    fsLookup (a :: fs) q = if a.1 = q then some a.2 else fsLookup fs q := by
  by_cases h : a.1 = q
  · simp [fsLookup, List.find?_cons, h]
  · simp [fsLookup, List.find?_cons, h]

theorem fsLookup_write_self (fs : FS) (pk : String) (d : ByteBuf) :
    fsLookup (fsWrite fs pk d) pk = some d := by
  simp [fsWrite, fsLookup_cons]

theorem fsLookup_filter_ne (fs : FS) (pk q : String) (h : q ≠ pk) :
    fsLookup (fs.filter (fun r => !(r.1 == pk))) q = fsLookup fs q := by
  induction fs with
  | nil => rfl
  | cons a fs ih =>
    rw [List.filter_cons]
    by_cases hp : a.1 = pk
    · rw [if_neg (by simp [hp]), ih, fsLookup_cons,
        if_neg (by rw [hp]; exact fun e => h e.symm)]
    · rw [if_pos (by simp [hp]), fsLookup_cons, fsLookup_cons, ih]

theorem fsLookup_write_ne (fs : FS) (pk q : String) (d : ByteBuf) (h : q ≠ pk) :
    fsLookup (fsWrite fs pk d) q = fsLookup fs q := by
  simp only [fsWrite, fsLookup_cons]
  rw [if_neg (fun e => h e.symm)]
  exact fsLookup_filter_ne fs pk q h

theorem fsLookup_remove_self (fs : FS) (pk : String) :
    fsLookup (fsRemove fs pk) pk = none := by
  induction fs with
  | nil => rfl
  | cons a fs ih =>
    simp only [fsRemove, List.filter_cons] at ih ⊢
    by_cases hp : a.1 = pk
    · rw [if_neg (by simp [hp])]; exact ih
    · rw [if_pos (by simp [hp]), fsLookup_cons, if_neg hp]; exact ih

theorem fsLookup_remove_ne (fs : FS) (pk q : String) (h : q ≠ pk) :
    fsLookup (fsRemove fs pk) q = fsLookup fs q :=
  fsLookup_filter_ne fs pk q h

theorem fsLookup_foldl_write_ne (l : List (String × ByteBuf)) (s : FS) (k : String)
    (h : ∀ p ∈ l, p.1 ≠ k) :
    fsLookup (l.foldl (fun acc p => fsWrite acc p.1 p.2) s) k = fsLookup s k := by
  induction l generalizing s with
  | nil => rfl
  | cons a l ih =>
    rw [List.foldl_cons, ih _ (fun p hp => h p (List.mem_cons_of_mem a hp)),
      fsLookup_write_ne _ _ _ _ (fun e => h a (List.mem_cons_self a l) e.symm)]

/-! ## String-suffix lemmas (for path disjointness) -/

theorem data_getLast?_append (x l : String) (hl : l.data ≠ []) :
    (x ++ l).data.getLast? = l.data.getLast? := by
  rw [String.data_append]
  exact List.getLast?_append_of_ne_nil _ hl

/-- Two strings with distinct known last characters differ. -/
theorem append_suffix_ne (x y a b : String) (ha : a.data ≠ []) (hb : b.data ≠ [])
    (hne : a.data.getLast? ≠ b.data.getLast?) : x ++ a ≠ y ++ b := by
  intro h
  have hd := congrArg (fun s => String.data s |>.getLast?) h
  simp only [data_getLast?_append _ _ ha, data_getLast?_append _ _ hb] at hd
  exact hne hd

/-- A list whose last element differs has no such suffix. -/
theorem not_suffix_of_getLast_ne {α : Type} {l₁ l₂ : List α} (h1 : l₁ ≠ [])
    (hne : l₁.getLast? ≠ l₂.getLast?) : ¬ l₁ <:+ l₂ := by
  rintro ⟨t, rfl⟩
  exact hne (List.getLast?_append_of_ne_nil _ h1).symm

/-! ## Slice-evaluation lemmas

Concrete manifests are thousands of bytes long; these lemmas let the slice
reads be computed arithmetically instead of by deep list recursion. -/

theorem sliceBytes_append_right (x y : ByteBuf) (a b : Nat) (h : x.length ≤ a) :
    sliceBytes (x ++ y) a b = sliceBytes y (a - x.length) (b - x.length) := by
  obtain ⟨k, rfl⟩ : ∃ k, a = x.length + k := ⟨a - x.length, by omega⟩
  simp only [sliceBytes, List.drop_append, Nat.add_sub_cancel_left]
  congr 1
  omega

theorem sliceBytes_append_left (x y : ByteBuf) (a b : Nat) (h : b ≤ x.length) :
    sliceBytes (x ++ y) a b = sliceBytes x a b := by
  simp only [sliceBytes]
  by_cases ha : a ≤ x.length
  · rw [List.drop_append_of_le_length ha, List.take_append_of_le_length]
    simp only [List.length_drop]
    omega
  · rw [show b - a = 0 by omega]
    simp

theorem sliceBytes_replicate (c n a b : Nat) :
    sliceBytes (List.replicate n c) a b = List.replicate (min (b - a) (n - a)) c := by
  simp only [sliceBytes, List.drop_replicate, List.take_replicate]

/-! ## Parser lemmas -/

theorem recordsFitFrom_zero (raw : ByteBuf) (i : Nat)
    (h : raw.length < 0xB04 + i * 0x30 + 0x30) : recordsFitFrom raw i = 0 := by
  simp only [recordsFitFrom]
  omega

theorem recordsFitFrom_succ (raw : ByteBuf) (i : Nat)
    (h : ¬raw.length < 0xB04 + i * 0x30 + 0x30) :
    recordsFitFrom raw i = recordsFitFrom raw (i + 1) + 1 := by
  simp only [recordsFitFrom]
  omega

/-- The `nus.py` record loop returns exactly the decodings of the records
that remain within both the count budget and the buffer. -/
theorem nusLoop_eq (raw : ByteBuf) :
    ∀ rem i, nusLoop raw rem i =
      (List.range' i (min rem (recordsFitFrom raw i))).map
        (fun j => decodeRecord raw (0xB04 + j * 0x30)) := by
  intro rem
  induction rem with
  | zero => intro i; simp [nusLoop]
  | succ rem ih =>
    intro i
    by_cases hlt : raw.length < 0xB04 + i * 0x30 + 0x30
    · rw [show nusLoop raw (rem + 1) i = [] by simp [nusLoop, hlt],
        recordsFitFrom_zero raw i hlt]
      simp
    · rw [show nusLoop raw (rem + 1) i
          = decodeRecord raw (0xB04 + i * 0x30) :: nusLoop raw rem (i + 1) by
            simp [nusLoop, hlt],
        recordsFitFrom_succ raw i hlt, Nat.succ_min_succ, List.range'_succ,
        List.map_cons, ih (i + 1)]

/-- The `CDN.py` record loop with the truncation break equals the
break-free reference loop run on exactly the records that fit. -/
theorem cdnLoop_eq_noBreak (raw : ByteBuf) :
    ∀ rem i seen, cdnLoop raw rem i seen
      = cdnLoopNoBreak raw (min rem (recordsFitFrom raw i)) i seen := by
  intro rem
  induction rem with
  | zero => intro i seen; simp [cdnLoop, cdnLoopNoBreak]
  | succ rem ih =>
    intro i seen
    by_cases hlt : raw.length < 0xB04 + i * 0x30 + 0x30
    · rw [show cdnLoop raw (rem + 1) i seen = [] by simp [cdnLoop, hlt],
        recordsFitFrom_zero raw i hlt]
      simp [cdnLoopNoBreak]
    · rw [recordsFitFrom_succ raw i hlt, Nat.succ_min_succ]
      show cdnLoop raw (rem + 1) i seen
        = cdnLoopNoBreak raw (min rem (recordsFitFrom raw (i + 1)) + 1) i seen
      simp only [cdnLoop, cdnLoopNoBreak, if_neg hlt]
      by_cases h1 : (decodeRecord raw (0xB04 + i * 0x30)).content_id = "00000000"
          ∧ (decodeRecord raw (0xB04 + i * 0x30)).size = 0
      · simp only [if_pos h1]; exact ih (i + 1) seen
      · simp only [if_neg h1]
        by_cases h2 : (decodeRecord raw (0xB04 + i * 0x30)).size = 0
            ∨ (decodeRecord raw (0xB04 + i * 0x30)).size > 8 * 1024 * 1024 * 1024
        · simp only [if_pos h2]; exact ih (i + 1) seen
        · simp only [if_neg h2]
          by_cases h3 : (decodeRecord raw (0xB04 + i * 0x30)).content_id ∈ seen
          · simp only [if_pos h3]; exact ih (i + 1) seen
          · simp only [if_neg h3]
            rw [ih (i + 1) ((decodeRecord raw (0xB04 + i * 0x30)).content_id :: seen)]

/-- Soundness of the `CDN.py` record loop: the surviving entries have
pairwise distinct ids, ids disjoint from `seen`, and sizes in the sane
range. -/
theorem cdnLoop_sound (raw : ByteBuf) :
    ∀ rem i seen,
      ((cdnLoop raw rem i seen).map ContentEntry.content_id).Nodup
      ∧ (∀ s ∈ seen, s ∉ (cdnLoop raw rem i seen).map ContentEntry.content_id)
      ∧ ∀ e ∈ cdnLoop raw rem i seen, 0 < e.size ∧ e.size ≤ 8 * 1024 * 1024 * 1024 := by
  intro rem
  induction rem with
  | zero => intro i seen; simp [cdnLoop]
  | succ rem ih =>
    intro i seen
    by_cases hlt : raw.length < 0xB04 + i * 0x30 + 0x30
    · simp [cdnLoop, hlt]
    · simp only [cdnLoop, if_neg hlt]
      by_cases h1 : (decodeRecord raw (0xB04 + i * 0x30)).content_id = "00000000"
          ∧ (decodeRecord raw (0xB04 + i * 0x30)).size = 0
      · simp only [if_pos h1]; exact ih (i + 1) seen
      · simp only [if_neg h1]
        by_cases h2 : (decodeRecord raw (0xB04 + i * 0x30)).size = 0
            ∨ (decodeRecord raw (0xB04 + i * 0x30)).size > 8 * 1024 * 1024 * 1024
        · simp only [if_pos h2]; exact ih (i + 1) seen
        · simp only [if_neg h2]
          by_cases h3 : (decodeRecord raw (0xB04 + i * 0x30)).content_id ∈ seen
          · simp only [if_pos h3]; exact ih (i + 1) seen
          · simp only [if_neg h3]
            obtain ⟨ihnodup, ihseen, ihsize⟩ :=
              ih (i + 1) ((decodeRecord raw (0xB04 + i * 0x30)).content_id :: seen)
            push_neg at h2
            refine ⟨?_, ?_, ?_⟩
            · simp only [List.map_cons, List.nodup_cons]
              exact ⟨ihseen _ (List.mem_cons_self _ _), ihnodup⟩
            · intro s hs
              simp only [List.map_cons, List.mem_cons]
              push_neg
              exact ⟨fun e => h3 (e ▸ hs), ihseen s (List.mem_cons_of_mem _ hs)⟩
            · intro e he
              rcases List.mem_cons.mp he with rfl | he
              · exact ⟨Nat.pos_of_ne_zero h2.1, h2.2⟩
              · exact ihsize e he

/-! ## Fixture evaluations

The concrete manifests are around 3000 bytes long, so their parses are
evaluated through the slice lemmas above rather than by raw kernel
reduction. -/

theorem nusLoop_zero (raw : ByteBuf) (i : Nat) : nusLoop raw 0 i = [] := rfl

theorem nusLoop_succ (raw : ByteBuf) (rem i : Nat) :
    nusLoop raw (rem + 1) i = if raw.length < 0xB04 + i * 0x30 + 0x30 then []
      else decodeRecord raw (0xB04 + i * 0x30) :: nusLoop raw rem (i + 1) := rfl

theorem cdnLoop_zero (raw : ByteBuf) (i : Nat) (seen : List String) :
    cdnLoop raw 0 i seen = [] := rfl

theorem cdnLoop_succ (raw : ByteBuf) (rem i : Nat) (seen : List String) :
    cdnLoop raw (rem + 1) i seen =
      if raw.length < 0xB04 + i * 0x30 + 0x30 then []
      else if (decodeRecord raw (0xB04 + i * 0x30)).content_id = "00000000"
              ∧ (decodeRecord raw (0xB04 + i * 0x30)).size = 0 then
        cdnLoop raw rem (i + 1) seen
      else if (decodeRecord raw (0xB04 + i * 0x30)).size = 0
              ∨ (decodeRecord raw (0xB04 + i * 0x30)).size > 8 * 1024 * 1024 * 1024 then
        cdnLoop raw rem (i + 1) seen
      else if (decodeRecord raw (0xB04 + i * 0x30)).content_id ∈ seen then
        cdnLoop raw rem (i + 1) seen
      else decodeRecord raw (0xB04 + i * 0x30) :: cdnLoop raw rem (i + 1)
        ((decodeRecord raw (0xB04 + i * 0x30)).content_id :: seen) := rfl

theorem oneRecTmd_length : oneRecTmd.length = 0xB34 := by
  simp only [oneRecTmd, sampleRecord, List.length_append, List.length_replicate,
    List.length_cons, List.length_nil]

theorem oneRecTmd_count : beBytes (sliceBytes oneRecTmd 0x9E 0xA0) = 1 := by
  simp only [oneRecTmd]
  rw [sliceBytes_append_left _ _ _ _ (by
        simp only [sampleRecord, List.length_append, List.length_replicate,
          List.length_cons, List.length_nil]; omega),
      sliceBytes_append_left _ _ _ _ (by
        simp only [List.length_append, List.length_replicate, List.length_cons,
          List.length_nil]; omega),
      sliceBytes_append_right _ _ _ _ (by simp only [List.length_replicate]; omega)]
  simp only [List.length_replicate]
  decide

theorem oneRecTmd_decode : decodeRecord oneRecTmd 0xB04 = sampleEntry := by
  simp only [oneRecTmd, decodeRecord]
  rw [sliceBytes_append_right _ _ _ _ (by
        simp only [List.length_append, List.length_replicate, List.length_cons,
          List.length_nil]; omega),
      sliceBytes_append_right _ _ _ _ (by
        simp only [List.length_append, List.length_replicate, List.length_cons,
          List.length_nil]; omega),
      sliceBytes_append_right _ _ _ _ (by
        simp only [List.length_append, List.length_replicate, List.length_cons,
          List.length_nil]; omega),
      sliceBytes_append_right _ _ _ _ (by
        simp only [List.length_append, List.length_replicate, List.length_cons,
          List.length_nil]; omega)]
  simp only [List.length_append, List.length_replicate, List.length_cons, List.length_nil]
  norm_num
  decide

theorem eval_oneRecTmd : nus_parse_tmd oneRecTmd = Except.ok [sampleEntry] := by
  simp only [nus_parse_tmd, oneRecTmd_length, oneRecTmd_count]
  rw [if_neg (by omega)]
  rw [show (1 : Nat) = 0 + 1 from rfl, nusLoop_succ,
    if_neg (by rw [oneRecTmd_length]; norm_num)]
  rw [show (0xB04 + 0 * 0x30 : Nat) = 0xB04 by norm_num, oneRecTmd_decode]
  rfl

theorem dupTmd_length : dupTmd.length = 0xB64 := by
  simp only [dupTmd, List.length_append, List.length_replicate, List.length_cons,
    List.length_nil]

theorem dupTmd_count : beBytes (sliceBytes dupTmd 0x9E 0xA0) = 2 := by
  simp only [dupTmd]
  rw [sliceBytes_append_left _ _ _ _ (by
        simp only [List.length_append, List.length_replicate, List.length_cons,
          List.length_nil]; omega),
      sliceBytes_append_left _ _ _ _ (by
        simp only [List.length_append, List.length_replicate, List.length_cons,
          List.length_nil]; omega),
      sliceBytes_append_right _ _ _ _ (by simp only [List.length_replicate]; omega)]
  simp only [List.length_replicate]
  decide

theorem dupTmd_decode (i : Nat) (h : i < 2) :
    decodeRecord dupTmd (0xB04 + i * 0x30) = zeroEntry := by
  interval_cases i <;>
  · simp only [decodeRecord, dupTmd]
    rw [sliceBytes_append_right _ _ _ _ (by
          simp only [List.length_append, List.length_replicate, List.length_cons,
            List.length_nil]; omega),
        sliceBytes_append_right _ _ _ _ (by
          simp only [List.length_append, List.length_replicate, List.length_cons,
            List.length_nil]; omega),
        sliceBytes_append_right _ _ _ _ (by
          simp only [List.length_append, List.length_replicate, List.length_cons,
            List.length_nil]; omega),
        sliceBytes_append_right _ _ _ _ (by
          simp only [List.length_append, List.length_replicate, List.length_cons,
            List.length_nil]; omega)]
    simp only [sliceBytes_replicate, List.length_append, List.length_replicate,
      List.length_cons, List.length_nil]
    norm_num
    decide

theorem eval_dupTmd : nus_parse_tmd dupTmd = Except.ok [zeroEntry, zeroEntry] := by
  simp only [nus_parse_tmd, dupTmd_length, dupTmd_count]
  rw [if_neg (by omega)]
  rw [show (2 : Nat) = 1 + 1 from rfl, nusLoop_succ,
    if_neg (by rw [dupTmd_length]; norm_num), dupTmd_decode 0 (by norm_num)]
  rw [show (1 : Nat) = 0 + 1 from rfl, nusLoop_succ,
    if_neg (by rw [dupTmd_length]; norm_num), dupTmd_decode 1 (by norm_num)]
  rfl

theorem c4Tmd_length : c4Tmd.length = 0xBF4 := by
  simp only [c4Tmd, List.length_append, List.length_replicate, List.length_cons,
    List.length_nil]

/-- All five records would be fully readable in `c4Tmd`: the truncation
break cannot fire before record 5. -/
theorem c4Tmd_fit : recordsFitFrom c4Tmd 0 = 5 := by
  simp only [recordsFitFrom, c4Tmd_length]

theorem c4Tmd_count : beBytes (sliceBytes c4Tmd 0x9E 0xA0) = 1 := by
  simp only [c4Tmd]
  rw [sliceBytes_append_left _ _ _ _ (by
        simp only [List.length_append, List.length_replicate, List.length_cons,
          List.length_nil]; omega),
      sliceBytes_append_left _ _ _ _ (by
        simp only [List.length_append, List.length_replicate, List.length_cons,
          List.length_nil]; omega),
      sliceBytes_append_left _ _ _ _ (by
        simp only [List.length_append, List.length_replicate, List.length_cons,
          List.length_nil]; omega),
      sliceBytes_append_right _ _ _ _ (by simp only [List.length_replicate]; omega)]
  simp only [List.length_replicate]
  decide

/-- The big-endian value of the two bytes immediately preceding the record
table in `c4Tmd`. -/
theorem c4Tmd_preTable : beBytes (sliceBytes c4Tmd 0xB02 0xB04) = 5 := by
  simp only [c4Tmd]
  rw [sliceBytes_append_left _ _ _ _ (by
        simp only [List.length_append, List.length_replicate, List.length_cons,
          List.length_nil]; omega),
      sliceBytes_append_right _ _ _ _ (by
        simp only [List.length_append, List.length_replicate, List.length_cons,
          List.length_nil]; omega)]
  simp only [List.length_append, List.length_replicate, List.length_cons, List.length_nil]
  norm_num
  decide

theorem c4Tmd_decode : decodeRecord c4Tmd 0xB04 = zeroEntry := by
  simp only [decodeRecord, c4Tmd]
  rw [sliceBytes_append_right _ _ _ _ (by
        simp only [List.length_append, List.length_replicate, List.length_cons,
          List.length_nil]; omega),
      sliceBytes_append_right _ _ _ _ (by
        simp only [List.length_append, List.length_replicate, List.length_cons,
          List.length_nil]; omega),
      sliceBytes_append_right _ _ _ _ (by
        simp only [List.length_append, List.length_replicate, List.length_cons,
          List.length_nil]; omega),
      sliceBytes_append_right _ _ _ _ (by
        simp only [List.length_append, List.length_replicate, List.length_cons,
          List.length_nil]; omega)]
  simp only [sliceBytes_replicate, List.length_append, List.length_replicate,
    List.length_cons, List.length_nil]
  norm_num
  decide

theorem eval_c4Tmd : nus_parse_tmd c4Tmd = Except.ok [zeroEntry] := by
  simp only [nus_parse_tmd, c4Tmd_length, c4Tmd_count]
  rw [if_neg (by omega)]
  rw [show (1 : Nat) = 0 + 1 from rfl, nusLoop_succ,
    if_neg (by rw [c4Tmd_length]; norm_num)]
  rw [show (0xB04 + 0 * 0x30 : Nat) = 0xB04 by norm_num, c4Tmd_decode]
  rfl

theorem truncTmd_length : truncTmd.length = 0xB34 := by
  simp only [truncTmd, sampleRecord, List.length_append, List.length_replicate,
    List.length_cons, List.length_nil]

theorem truncTmd_count : beBytes (sliceBytes truncTmd 0x9E 0xA0) = 2 := by
  simp only [truncTmd]
  rw [sliceBytes_append_left _ _ _ _ (by
        simp only [sampleRecord, List.length_append, List.length_replicate,
          List.length_cons, List.length_nil]; omega),
      sliceBytes_append_left _ _ _ _ (by
        simp only [List.length_append, List.length_replicate, List.length_cons,
          List.length_nil]; omega),
      sliceBytes_append_right _ _ _ _ (by simp only [List.length_replicate]; omega)]
  simp only [List.length_replicate]
  decide

theorem truncTmd_decode : decodeRecord truncTmd 0xB04 = sampleEntry := by
  simp only [truncTmd, decodeRecord]
  rw [sliceBytes_append_right _ _ _ _ (by
        simp only [List.length_append, List.length_replicate, List.length_cons,
          List.length_nil]; omega),
      sliceBytes_append_right _ _ _ _ (by
        simp only [List.length_append, List.length_replicate, List.length_cons,
          List.length_nil]; omega),
      sliceBytes_append_right _ _ _ _ (by
        simp only [List.length_append, List.length_replicate, List.length_cons,
          List.length_nil]; omega),
      sliceBytes_append_right _ _ _ _ (by
        simp only [List.length_append, List.length_replicate, List.length_cons,
          List.length_nil]; omega)]
  simp only [List.length_append, List.length_replicate, List.length_cons, List.length_nil]
  norm_num
  decide

theorem eval_truncTmd : parse_tmd truncTmd = Except.ok [sampleEntry] := by
  simp only [parse_tmd, truncTmd_length, truncTmd_count]
  rw [if_neg (by omega)]
  rw [show (2 : Nat) = 1 + 1 from rfl, cdnLoop_succ,
    if_neg (by rw [truncTmd_length]; norm_num),
    show (0xB04 + 0 * 0x30 : Nat) = 0xB04 by norm_num, truncTmd_decode,
    if_neg (by decide), if_neg (by decide), if_neg (by decide)]
  rw [show (1 : Nat) = 0 + 1 from rfl, cdnLoop_succ,
    if_pos (by rw [truncTmd_length]; norm_num)]

theorem filtTmd_length : filtTmd.length = 0xB94 := by
  simp only [filtTmd, sampleRecord, badSizeRecord, List.length_append,
    List.length_replicate, List.length_cons, List.length_nil]

theorem filtTmd_count : beBytes (sliceBytes filtTmd 0x9E 0xA0) = 3 := by
  simp only [filtTmd]
  rw [sliceBytes_append_left _ _ _ _ (by
        simp only [sampleRecord, badSizeRecord, List.length_append, List.length_replicate,
          List.length_cons, List.length_nil]; omega),
      sliceBytes_append_left _ _ _ _ (by
        simp only [sampleRecord, List.length_append, List.length_replicate,
          List.length_cons, List.length_nil]; omega),
      sliceBytes_append_left _ _ _ _ (by
        simp only [sampleRecord, List.length_append, List.length_replicate,
          List.length_cons, List.length_nil]; omega),
      sliceBytes_append_left _ _ _ _ (by
        simp only [List.length_append, List.length_replicate, List.length_cons,
          List.length_nil]; omega),
      sliceBytes_append_right _ _ _ _ (by simp only [List.length_replicate]; omega)]
  simp only [List.length_replicate]
  decide

theorem filtTmd_decode0 : decodeRecord filtTmd (0xB04 + 0 * 0x30) = sampleEntry := by
  rw [show (0xB04 + 0 * 0x30 : Nat) = 0xB04 by norm_num]
  simp only [filtTmd, decodeRecord]
  rw [sliceBytes_append_left _ _ _ _ (by
        simp only [sampleRecord, badSizeRecord, List.length_append, List.length_replicate,
          List.length_cons, List.length_nil]; omega),
      sliceBytes_append_left _ _ _ _ (by
        simp only [sampleRecord, List.length_append, List.length_replicate,
          List.length_cons, List.length_nil]; omega),
      sliceBytes_append_right _ _ _ _ (by
        simp only [List.length_append, List.length_replicate, List.length_cons,
          List.length_nil]; omega),
      sliceBytes_append_left _ _ _ _ (by
        simp only [sampleRecord, badSizeRecord, List.length_append, List.length_replicate,
          List.length_cons, List.length_nil]; omega),
      sliceBytes_append_left _ _ _ _ (by
        simp only [sampleRecord, List.length_append, List.length_replicate,
          List.length_cons, List.length_nil]; omega),
      sliceBytes_append_right _ _ _ _ (by
        simp only [List.length_append, List.length_replicate, List.length_cons,
          List.length_nil]; omega),
      sliceBytes_append_left _ _ _ _ (by
        simp only [sampleRecord, badSizeRecord, List.length_append, List.length_replicate,
          List.length_cons, List.length_nil]; omega),
      sliceBytes_append_left _ _ _ _ (by
        simp only [sampleRecord, List.length_append, List.length_replicate,
          List.length_cons, List.length_nil]; omega),
      sliceBytes_append_right _ _ _ _ (by
        simp only [List.length_append, List.length_replicate, List.length_cons,
          List.length_nil]; omega),
      sliceBytes_append_left _ _ _ _ (by
        simp only [sampleRecord, badSizeRecord, List.length_append, List.length_replicate,
          List.length_cons, List.length_nil]; omega),
      sliceBytes_append_left _ _ _ _ (by
        simp only [sampleRecord, List.length_append, List.length_replicate,
          List.length_cons, List.length_nil]; omega),
      sliceBytes_append_right _ _ _ _ (by
        simp only [List.length_append, List.length_replicate, List.length_cons,
          List.length_nil]; omega)]
  simp only [List.length_append, List.length_replicate, List.length_cons, List.length_nil]
  norm_num
  decide

theorem filtTmd_decode1 : decodeRecord filtTmd (0xB04 + 1 * 0x30) = sampleEntry := by
  rw [show (0xB04 + 1 * 0x30 : Nat) = 0xB34 by norm_num]
  simp only [filtTmd, decodeRecord]
  rw [sliceBytes_append_left _ _ _ _ (by
        simp only [sampleRecord, badSizeRecord, List.length_append, List.length_replicate,
          List.length_cons, List.length_nil]; omega),
      sliceBytes_append_right _ _ _ _ (by
        simp only [sampleRecord, List.length_append, List.length_replicate,
          List.length_cons, List.length_nil]; omega),
      sliceBytes_append_left _ _ _ _ (by
        simp only [sampleRecord, badSizeRecord, List.length_append, List.length_replicate,
          List.length_cons, List.length_nil]; omega),
      sliceBytes_append_right _ _ _ _ (by
        simp only [sampleRecord, List.length_append, List.length_replicate,
          List.length_cons, List.length_nil]; omega),
      sliceBytes_append_left _ _ _ _ (by
        simp only [sampleRecord, badSizeRecord, List.length_append, List.length_replicate,
          List.length_cons, List.length_nil]; omega),
      sliceBytes_append_right _ _ _ _ (by
        simp only [sampleRecord, List.length_append, List.length_replicate,
          List.length_cons, List.length_nil]; omega),
      sliceBytes_append_left _ _ _ _ (by
        simp only [sampleRecord, badSizeRecord, List.length_append, List.length_replicate,
          List.length_cons, List.length_nil]; omega),
      sliceBytes_append_right _ _ _ _ (by
        simp only [sampleRecord, List.length_append, List.length_replicate,
          List.length_cons, List.length_nil]; omega)]
  simp only [sampleRecord, List.length_append, List.length_replicate, List.length_cons,
    List.length_nil]
  norm_num
  decide

theorem filtTmd_decode2 : decodeRecord filtTmd (0xB04 + 2 * 0x30) = badEntry := by
  rw [show (0xB04 + 2 * 0x30 : Nat) = 0xB64 by norm_num]
  simp only [filtTmd, decodeRecord]
  rw [sliceBytes_append_right _ _ _ _ (by
        simp only [sampleRecord, List.length_append, List.length_replicate,
          List.length_cons, List.length_nil]; omega),
      sliceBytes_append_right _ _ _ _ (by
        simp only [sampleRecord, List.length_append, List.length_replicate,
          List.length_cons, List.length_nil]; omega),
      sliceBytes_append_right _ _ _ _ (by
        simp only [sampleRecord, List.length_append, List.length_replicate,
          List.length_cons, List.length_nil]; omega),
      sliceBytes_append_right _ _ _ _ (by
        simp only [sampleRecord, List.length_append, List.length_replicate,
          List.length_cons, List.length_nil]; omega)]
  simp only [sampleRecord, List.length_append, List.length_replicate, List.length_cons,
    List.length_nil]
  norm_num
  decide

theorem eval_filtTmd : parse_tmd filtTmd = Except.ok [sampleEntry] := by
  simp only [parse_tmd, filtTmd_length, filtTmd_count]
  rw [if_neg (by omega)]
  rw [show (3 : Nat) = 2 + 1 from rfl, cdnLoop_succ,
    if_neg (by rw [filtTmd_length]; norm_num), filtTmd_decode0,
    if_neg (by decide), if_neg (by decide), if_neg (by decide)]
  rw [show (2 : Nat) = 1 + 1 from rfl, cdnLoop_succ,
    if_neg (by rw [filtTmd_length]; norm_num), filtTmd_decode1,
    if_neg (by decide), if_neg (by decide), if_pos (by decide)]
  rw [show (1 : Nat) = 0 + 1 from rfl, cdnLoop_succ,
    if_neg (by rw [filtTmd_length]; norm_num), filtTmd_decode2,
    if_neg (by decide), if_pos (by decide)]
  rw [cdnLoop_zero]

/-! ## Last-character lemmas for path disjointness -/

theorem ne_of_data_getLast?_ne {s t : String} (h : s.data.getLast? ≠ t.data.getLast?) :
    s ≠ t := fun e => h (congrArg (fun u => String.data u |>.getLast?) e)

theorem getLast?_append_str (x l : String) {c : Char} (h : l.data.getLast? = some c) :
    (x ++ l).data.getLast? = some c := by
  rw [data_getLast?_append x l (by intro e; rw [e] at h; cases h)]
  exact h

theorem getLast?_of_strEndsWith {m suf : String} {c : Char} (h : strEndsWith m suf = true)
    (hc : suf.data.getLast? = some c) : m.data.getLast? = some c := by
  have hs : suf.data <:+ m.data := of_decide_eq_true h
  obtain ⟨t, ht⟩ := hs
  rw [← ht, List.getLast?_append_of_ne_nil _ (by intro e; rw [e] at hc; cases hc)]
  exact hc

/-- The `.app` path of a content and any `.h3` path are distinct files. -/
theorem app_path_ne_h3_path (dir cid tid ccid : String) :
    pathJoin dir (cid ++ ".app") ≠ pathJoin dir (tid ++ "_" ++ ccid ++ ".h3") := by
  apply ne_of_data_getLast?_ne
  have hp : (".app" : String).data.getLast? = some 'p' := by decide
  have h3 : (".h3" : String).data.getLast? = some '3' := by decide
  rw [show pathJoin dir (cid ++ ".app") = (dir ++ "/") ++ (cid ++ ".app") from rfl,
    show pathJoin dir (tid ++ "_" ++ ccid ++ ".h3")
      = (dir ++ "/") ++ (tid ++ "_" ++ ccid ++ ".h3") from rfl,
    getLast?_append_str _ _ (getLast?_append_str cid ".app" hp),
    getLast?_append_str _ _ (getLast?_append_str _ ".h3" h3)]
  decide

/-! ## Effect lemmas for the fetch and the `.h3` phase -/

/-- `download_file_with_progress` touches no path other than its
destination. -/
theorem download_lookup_ne (env : Env) (url filename : String) (fs : FS) (q : String)
    (hq : q ≠ filename) :
    fsLookup (download_file_with_progress env url filename fs).2 q = fsLookup fs q := by
  simp only [download_file_with_progress]
  cases env.net url with
  | transportError => rfl
  | response status body =>
    by_cases h1 : status = 404
    · simp [h1]
    · by_cases h2 : 400 ≤ status ∧ status < 600
      · simp [h1, h2]
      · by_cases h3 : env.writeFails filename
        · simp [h1, h2, h3]
        · simp [h1, h2, h3, fsLookup_write_ne _ _ _ _ hq]

/-- The `.h3` phase touches no path other than the `.h3` destination. -/
theorem pcH3Phase_lookup (env : Env) (cid base tid dir : String)
    (force h3 : Bool) (fs : FS) (q : String)
    (hq : q ≠ pathJoin dir (tid ++ "_" ++ cid ++ ".h3")) :
    fsLookup (pcH3Phase env cid base tid dir force h3 fs).2 q = fsLookup fs q := by
  simp only [pcH3Phase]
  split_ifs <;> first | rfl | exact download_lookup_ne _ _ _ _ _ hq

/-! ## Aggregation lemmas -/

/-- Pointwise value of one collection-loop iteration: the base count plus
an indicator for the `.app` key and an indicator for the `h3_` key. -/
theorem collectStep_apply (h3flag : Bool) (d : TitleStats) (r : PCResult) (q : String) :
    collectStep h3flag d r q
      = d q + (if q = r.app_status then 1 else 0)
          + (if (h3flag ∧ r.h3_status ∈ (["ok", "failed", "skipped"] : List String))
                ∧ q = "h3_" ++ r.h3_status then 1 else 0) := by
  simp only [collectStep, statInc, ite_apply]
  split_ifs <;> first | omega | tauto

theorem collectStep_comm (h3flag : Bool) (d : TitleStats) (r1 r2 : PCResult) :
    collectStep h3flag (collectStep h3flag d r1) r2
      = collectStep h3flag (collectStep h3flag d r2) r1 := by
  funext q
  simp only [collectStep_apply]
  omega

/-- Folding the collection loop is invariant under permutation of the
completion order. -/
theorem foldl_collectStep_perm (h3flag : Bool) {l1 l2 : List PCResult}
    (h : l1.Perm l2) : ∀ d, l1.foldl (collectStep h3flag) d = l2.foldl (collectStep h3flag) d := by
  induction h with
  | nil => intro d; rfl
  | cons x _ ih => intro d; rw [List.foldl_cons, List.foldl_cons, ih]
  | swap x y l => intro d; rw [List.foldl_cons, List.foldl_cons, List.foldl_cons,
      List.foldl_cons, collectStep_comm]
  | trans _ _ ih1 ih2 => intro d; rw [ih1, ih2]

theorem appStatusSum_statInc_app (d : TitleStats) (k : String) (hk : k ∈ appStatusKeys) :
    appStatusSum (statInc d k) = appStatusSum d + 1 := by
  fin_cases hk <;> simp [appStatusSum, statInc] <;> omega

theorem appStatusSum_statInc_h3 (d : TitleStats) (s : String)
    (hs : s ∈ (["ok", "failed", "skipped"] : List String)) :
    appStatusSum (statInc d ("h3_" ++ s)) = appStatusSum d := by
  fin_cases hs <;> simp [appStatusSum, statInc]

theorem appStatusSum_collectStep (h3flag : Bool) (d : TitleStats) (r : PCResult)
    (hr : r.app_status ∈ appStatusKeys) :
    appStatusSum (collectStep h3flag d r) = appStatusSum d + 1 := by
  simp only [collectStep]
  by_cases c : h3flag ∧ r.h3_status ∈ (["ok", "failed", "skipped"] : List String)
  · rw [if_pos c, appStatusSum_statInc_h3 _ _ c.2, appStatusSum_statInc_app _ _ hr]
  · rw [if_neg c, appStatusSum_statInc_app _ _ hr]

theorem appStatusSum_foldl (h3flag : Bool) :
    ∀ rs : List PCResult, (∀ r ∈ rs, r.app_status ∈ appStatusKeys) →
      ∀ d, appStatusSum (rs.foldl (collectStep h3flag) d) = appStatusSum d + rs.length := by
  intro rs
  induction rs with
  | nil => intro _ d; simp
  | cons a rs ih =>
    intro h d
    rw [List.foldl_cons, ih (fun r hr => h r (List.mem_cons_of_mem a hr)),
      appStatusSum_collectStep h3flag d a (h a (List.mem_cons_self a rs)), List.length_cons]
    omega

/-- Every `.app` outcome of `CDN.py`'s `process_content` is one of the four
counted categories. -/
theorem pcAppPhase_status_mem (env : Env) (entry : ContentEntry) (url filename : String)
    (force nohash : Bool) (fs : FS) :
    (pcAppPhase env entry url filename force nohash fs).1 ∈ appStatusKeys := by
  simp only [pcAppPhase, appStatusKeys]
  split_ifs <;> simp

theorem process_content_status_mem (env : Env) (entry : ContentEntry)
    (base_url title_id download_dir : String) (force nohash download_h3 : Bool) (fs : FS) :
    (process_content env entry base_url title_id download_dir force nohash download_h3
      fs).1.app_status ∈ appStatusKeys :=
  pcAppPhase_status_mem env entry _ _ force nohash fs

/-! ## Hex output lemmas -/

theorem hexDigitChar_mem (n : Nat) :
    hexDigitChar n ∈ ("0123456789abcdef" : String).data := by
  have h : n % 16 < 16 := Nat.mod_lt _ (by norm_num)
  simp only [hexDigitChar]
  interval_cases hm : n % 16 <;> decide

theorem wordHex_chars (w : Nat) :
    ∀ c ∈ (wordHex w).data, c ∈ ("0123456789abcdef" : String).data := by
  intro c hc
  simp only [wordHex, String.data, List.mem_cons, List.not_mem_nil, or_false] at hc
  rcases hc with rfl | rfl | rfl | rfl | rfl | rfl | rfl | rfl <;>
    exact hexDigitChar_mem _

/-! ## The claims -/

/-- C1 (amended): for every buffer accepted by `CDN.py`'s `parse_tmd`, the
returned descriptors have pairwise-distinct content ids and sizes in
`(0, 8·2^30]` (`8 * 1024 * 1024 * 1024 = 8·2^30`); violating records are
dropped without aborting (the parse still returns `ok`).  The claim as
stated also covers `nus.py`'s `parse_tmd`, which performs no filtering —
see the counterexample. -/
theorem claimC1_theorem : ∀ (raw : ByteBuf) (l : List ContentEntry),
    parse_tmd raw = Except.ok l →
    ((l.map ContentEntry.content_id).Nodup
      ∧ ∀ e ∈ l, 0 < e.size ∧ e.size ≤ 8 * 1024 * 1024 * 1024) := by
  intro raw l h
  by_cases hlen : raw.length < 0xB04
  · simp only [parse_tmd] at h
    rw [if_pos hlen] at h
    exact Except.noConfusion h
  · simp only [parse_tmd] at h
    rw [if_neg hlen] at h
    injection h with h
    subst h
    obtain ⟨h1, _, h3⟩ := cdnLoop_sound raw (beBytes (sliceBytes raw 0x9E 0xA0)) 0 []
    exact ⟨h1, h3⟩

/-- Witness for C1: `filtTmd` declares a good record, a duplicate of it and
a zero-size record; `CDN.py`'s parse drops the latter two, returns `ok`,
and the survivors satisfy the invariant. -/
theorem claimC1_witness :
    parse_tmd filtTmd = Except.ok [sampleEntry]
    ∧ (([sampleEntry].map ContentEntry.content_id).Nodup
      ∧ ∀ e ∈ [sampleEntry], 0 < e.size ∧ e.size ≤ 8 * 1024 * 1024 * 1024) :=
  ⟨eval_filtTmd, claimC1_theorem filtTmd [sampleEntry] eval_filtTmd⟩

/-- Counterexample for C1: `nus.py`'s `parse_tmd` (also cited by the claim)
applies none of the filters: on `dupTmd` it returns two entries with the
same content id and with size 0. -/
theorem claimC1_counterexample :
    nus_parse_tmd dupTmd = Except.ok [zeroEntry, zeroEntry]
    ∧ ¬ (([zeroEntry, zeroEntry].map ContentEntry.content_id).Nodup)
    ∧ ¬ (∀ e ∈ [zeroEntry, zeroEntry], 0 < e.size) :=
  ⟨eval_dupTmd, by decide, by decide⟩

/-- C4 (amended): every record `i` of a parsed manifest is decoded from the
0x30 bytes at `0xB04 + i*0x30`: 4-byte lowercase-hex id at sub-offset 0,
big-endian 2-byte index at sub-offset 4, big-endian 8-byte size at
sub-offset 8 (4 bytes into the trailing region that starts after the id,
NOT its first 8 bytes), and the 32-byte digest at sub-offsets 16..48,
ending exactly at the record's end.  The record count is the big-endian
2-byte field at fixed offset `0x9E` — which is NOT immediately preceding
the record table at `0xB04` (see the counterexample). -/
theorem claimC4_theorem : ∀ (raw : ByteBuf) (l : List ContentEntry),
    nus_parse_tmd raw = Except.ok l →
    (l.length = min (beBytes (sliceBytes raw 0x9E 0xA0)) (recordsFitFrom raw 0)
      ∧ ∀ i (hi : i < l.length),
        l.get ⟨i, hi⟩
          = { index := beBytes (sliceBytes raw (0xB04 + i * 0x30 + 4) (0xB04 + i * 0x30 + 6)),
              content_id := bytesHex (sliceBytes raw (0xB04 + i * 0x30) (0xB04 + i * 0x30 + 4)),
              size := beBytes (sliceBytes raw (0xB04 + i * 0x30 + 8) (0xB04 + i * 0x30 + 16)),
              hash := bytesHex (sliceBytes raw (0xB04 + i * 0x30 + 16) (0xB04 + i * 0x30 + 0x30)) }) := by
  intro raw l h
  by_cases hlen : raw.length < 0xB04
  · simp only [nus_parse_tmd] at h
    rw [if_pos hlen] at h
    exact Except.noConfusion h
  · simp only [nus_parse_tmd] at h
    rw [if_neg hlen] at h
    injection h with h
    subst h
    rw [nusLoop_eq]
    constructor
    · simp [List.length_range']
    · intro i hi
      simp only [List.get_eq_getElem, List.getElem_map, List.getElem_range', decodeRecord]
      simp [Nat.zero_add]

/-- Witness for C4: a one-record manifest parses to exactly the record
count read at `0x9E`. -/
theorem claimC4_witness :
    nus_parse_tmd oneRecTmd = Except.ok [sampleEntry]
    ∧ [sampleEntry].length
        = min (beBytes (sliceBytes oneRecTmd 0x9E 0xA0)) (recordsFitFrom oneRecTmd 0) :=
  ⟨eval_oneRecTmd, (claimC4_theorem oneRecTmd [sampleEntry] eval_oneRecTmd).1⟩

/-- Counterexample for C4: in `c4Tmd` the two bytes immediately preceding
the record table (at `0xB02..0xB04`) encode 5 and all five records would
fit in the buffer (`recordsFitFrom c4Tmd 0 = 5`, so the truncation break
cannot fire before record 5), while the field at `0x9E` encodes 1 — and
the parser returns exactly 1 record.  A parser reading the count
immediately before the record table would return 5 records here, so the
count is NOT read immediately before the record table. -/
theorem claimC4_counterexample :
    beBytes (sliceBytes c4Tmd 0x9E 0xA0) = 1
    ∧ beBytes (sliceBytes c4Tmd 0xB02 0xB04) = 5
    ∧ recordsFitFrom c4Tmd 0 = 5
    ∧ nus_parse_tmd c4Tmd = Except.ok [zeroEntry] :=
  ⟨c4Tmd_count, c4Tmd_preTable, c4Tmd_fit, eval_c4Tmd⟩

/-- C5: both parsers fail (with the "too short" error and no descriptors)
exactly when the buffer is shorter than `0xB04`; a buffer that reaches
`0xB04` never fails, and a truncation mid-record-table merely stops the
iteration: the result equals the break-free iteration over
`min count ((length - 0xB04) / 0x30)` records, i.e. all fully-readable
preceding records.  (The truncation diagnostic is a log line, outside the
model.) -/
theorem claimC5_theorem : ∀ raw : ByteBuf,
    ((parse_tmd raw).isOk = true ↔ 0xB04 ≤ raw.length)
    ∧ (raw.length < 0xB04 →
        parse_tmd raw = Except.error "TMD too short or malformed (header too small)"
        ∧ nus_parse_tmd raw = Except.error "TMD too short or malformed (header too small)")
    ∧ (∀ l, parse_tmd raw = Except.ok l →
        l = cdnLoopNoBreak raw
              (min (beBytes (sliceBytes raw 0x9E 0xA0)) (recordsFitFrom raw 0)) 0 [])
    ∧ (∀ l, nus_parse_tmd raw = Except.ok l →
        l = (List.range' 0
              (min (beBytes (sliceBytes raw 0x9E 0xA0)) (recordsFitFrom raw 0))).map
              (fun j => decodeRecord raw (0xB04 + j * 0x30))) := by
  intro raw
  refine ⟨?_, ?_, ?_, ?_⟩
  · by_cases hlen : raw.length < 0xB04
    · rw [show parse_tmd raw = Except.error "TMD too short or malformed (header too small)"
          from by simp only [parse_tmd]; rw [if_pos hlen]]
      constructor
      · intro h; exact Bool.noConfusion h
      · intro h; omega
    · rw [show parse_tmd raw
          = Except.ok (cdnLoop raw (beBytes (sliceBytes raw 0x9E 0xA0)) 0 [])
          from by simp only [parse_tmd]; rw [if_neg hlen]]
      constructor
      · intro _; omega
      · intro _; rfl
  · intro hlen
    constructor
    · simp only [parse_tmd]; rw [if_pos hlen]
    · simp only [nus_parse_tmd]; rw [if_pos hlen]
  · intro l h
    by_cases hlen : raw.length < 0xB04
    · simp only [parse_tmd] at h; rw [if_pos hlen] at h; exact Except.noConfusion h
    · simp only [parse_tmd] at h; rw [if_neg hlen] at h
      injection h with h
      subst h
      exact cdnLoop_eq_noBreak raw _ 0 []
  · intro l h
    by_cases hlen : raw.length < 0xB04
    · simp only [nus_parse_tmd] at h; rw [if_pos hlen] at h; exact Except.noConfusion h
    · simp only [nus_parse_tmd] at h; rw [if_neg hlen] at h
      injection h with h
      subst h
      exact nusLoop_eq raw _ 0

/-- Witness for C5: the empty buffer fails with the "too short" error; the
truncated `truncTmd` (count 2, one full record present) succeeds and
returns exactly the one fully-readable record. -/
theorem claimC5_witness :
    parse_tmd ([] : ByteBuf) = Except.error "TMD too short or malformed (header too small)"
    ∧ parse_tmd truncTmd = Except.ok [sampleEntry]
    ∧ [sampleEntry] = cdnLoopNoBreak truncTmd
        (min (beBytes (sliceBytes truncTmd 0x9E 0xA0)) (recordsFitFrom truncTmd 0)) 0 [] :=
  ⟨((claimC5_theorem []).2.1 (by decide)).1, eval_truncTmd,
   (claimC5_theorem truncTmd).2.2.1 [sampleEntry] eval_truncTmd⟩

/-- C3 (amended): a 404 response is detected and logged separately, but the
value returned to the caller is the same `False` (or `None` from
`fetch_tmd`) produced by a transport error, so a caller cannot branch on
NotFound versus TransferError through the result; nothing is retried (each
function performs a single request). -/
theorem claimC3_theorem (e404 eErr : Env) (url filename tid : String) (fs : FS)
    (body : ByteBuf)
    (h1 : e404.net url = HttpResult.response 404 body)
    (h2 : eErr.net url = HttpResult.transportError)
    (h3 : e404.net (BASE_NUS_URL ++ tid ++ "/tmd") = HttpResult.response 404 body)
    (h4 : eErr.net (BASE_NUS_URL ++ tid ++ "/tmd") = HttpResult.transportError) :
    download_file_with_progress e404 url filename fs = (false, fs)
    ∧ download_file_with_progress eErr url filename fs = (false, fs)
    ∧ fetch_tmd e404 tid = none
    ∧ fetch_tmd eErr tid = none := by
  refine ⟨?_, ?_, ?_, ?_⟩ <;>
    simp [download_file_with_progress, fetch_tmd, h1, h2, h3, h4]

/-- Witness for C3 (amended form). -/
theorem claimC3_witness :
    env404.net "u" = HttpResult.response 404 []
    ∧ envErr.net "u" = HttpResult.transportError
    ∧ download_file_with_progress env404 "u" "f" [] = (false, [])
    ∧ fetch_tmd envErr "t" = none :=
  have h1 : env404.net "u" = HttpResult.response 404 [] := rfl
  have h2 : envErr.net "u" = HttpResult.transportError := rfl
  have h3 : env404.net (BASE_NUS_URL ++ "t" ++ "/tmd") = HttpResult.response 404 [] := rfl
  have h4 : envErr.net (BASE_NUS_URL ++ "t" ++ "/tmd") = HttpResult.transportError := rfl
  ⟨h1, h2, (claimC3_theorem env404 envErr "u" "f" "t" [] [] h1 h2 h3 h4).1,
   (claimC3_theorem env404 envErr "u" "f" "t" [] [] h1 h2 h3 h4).2.2.2⟩

/-- Counterexample for C3: a network answering 404 and a network raising a
transport error produce IDENTICAL results from the content fetcher (both
`(False, unchanged fs)`) and from `fetch_tmd` (both `None`) — the NotFound
outcome is not a distinct result value. -/
theorem claimC3_counterexample :
    download_file_with_progress env404 "u" "f" [] = download_file_with_progress envErr "u" "f" []
    ∧ (download_file_with_progress env404 "u" "f" []).1 = false
    ∧ fetch_tmd env404 "t" = fetch_tmd envErr "t" :=
  ⟨rfl, rfl, rfl⟩

/-- C10: `download_file_with_progress` is total and returns `True` exactly
when the request yields a response whose status is outside 400..599 and the
local file write succeeds; every transport error, every 4xx/5xx status
(404 included) and every local write failure return the one value `False`,
indistinguishable from each other. -/
theorem claimC10_theorem : ∀ (env : Env) (url filename : String) (fs : FS),
    ((download_file_with_progress env url filename fs).1 = true
      ↔ ∃ status body, env.net url = HttpResult.response status body
          ∧ ¬(400 ≤ status ∧ status < 600) ∧ env.writeFails filename = false)
    ∧ ∀ body, env.net url = HttpResult.response 404 body →
        download_file_with_progress env url filename fs = (false, fs) := by
  intro env url filename fs
  constructor
  · cases hnet : env.net url with
    | transportError => simp [download_file_with_progress, hnet]
    | response status body =>
      simp only [download_file_with_progress, hnet]
      by_cases h404 : status = 404
      · subst h404
        rw [if_pos rfl]
        constructor
        · intro hf; exact absurd hf (by simp)
        · rintro ⟨s, b, hsb, hc, -⟩
          injection hsb with hs hb
          subst hs
          exact (hc (by omega)).elim
      · rw [if_neg h404]
        by_cases hst : 400 ≤ status ∧ status < 600
        · rw [if_pos hst]
          constructor
          · intro hf; exact absurd hf (by simp)
          · rintro ⟨s, b, hsb, hc, -⟩
            injection hsb with hs hb
            subst hs
            exact (hc hst).elim
        · rw [if_neg hst]
          by_cases hw : env.writeFails filename
          · rw [if_pos hw]
            constructor
            · intro hf; exact absurd hf (by simp)
            · rintro ⟨s, b, hsb, -, hwf⟩
              rw [hwf] at hw
              exact Bool.noConfusion hw
          · rw [if_neg hw]
            constructor
            · intro _
              exact ⟨status, body, rfl, hst, by simpa using hw⟩
            · intro _
              rfl
  · intro body hnet
    simp [download_file_with_progress, hnet]

/-- Witness for C10: a 404 collapses to `(False, unchanged fs)`. -/
theorem claimC10_witness :
    env404.net "u" = HttpResult.response 404 []
    ∧ download_file_with_progress env404 "u" "f" [] = (false, []) :=
  have h : env404.net "u" = HttpResult.response 404 [] := rfl
  ⟨h, (claimC10_theorem env404 "u" "f" []).2 [] h⟩

/-- C2 (amended): in `CDN.py`'s `process_content`, a pre-existing `.app`
file whose digest differs from the expected one, with hash checking on and
no force flag, yields app status `hash_fail` and the file's directory entry
is untouched (no deletion, no overwrite).  The claim as stated also cites
`nus.py`, whose `process_content` instead falls through and re-downloads —
see the counterexample. -/
theorem claimC2_theorem (env : Env) (entry : ContentEntry)
    (base_url title_id download_dir : String) (download_h3 : Bool) (fs : FS)
    (hex : fsExists fs (pathJoin download_dir (entry.content_id ++ ".app")) = true)
    (hmm : sha256_hash (fsRead fs (pathJoin download_dir (entry.content_id ++ ".app")))
            ≠ entry.hash) :
    (process_content env entry base_url title_id download_dir false false download_h3
        fs).1.app_status = "hash_fail"
    ∧ fsLookup
        (process_content env entry base_url title_id download_dir false false download_h3 fs).2
        (pathJoin download_dir (entry.content_id ++ ".app"))
      = fsLookup fs (pathJoin download_dir (entry.content_id ++ ".app")) := by
  have happ : pcAppPhase env entry (base_url ++ entry.content_id)
      (pathJoin download_dir (entry.content_id ++ ".app")) false false fs
      = ("hash_fail", fs) := by
    simp only [pcAppPhase]
    rw [if_pos ⟨hex, by simp⟩, if_pos (by simp), if_neg hmm]
  constructor
  · simp only [process_content, happ]
  · simp only [process_content, happ]
    exact pcH3Phase_lookup env entry.content_id base_url title_id download_dir false
      download_h3 fs _
      (app_path_ne_h3_path download_dir entry.content_id title_id entry.content_id)

/-- Witness for C2: a pre-existing empty `.app` file whose digest differs
from the expected `"zz"` yields `hash_fail` and is left in place, even with
`--h3` enabled. -/
theorem claimC2_witness :
    fsExists fsPre (pathJoin "d" (entMismatch.content_id ++ ".app")) = true
    ∧ sha256_hash (fsRead fsPre (pathJoin "d" (entMismatch.content_id ++ ".app")))
        ≠ entMismatch.hash
    ∧ (process_content envErr entMismatch "b" "t" "d" false false true fsPre).1.app_status
        = "hash_fail"
    ∧ fsLookup (process_content envErr entMismatch "b" "t" "d" false false true fsPre).2
        (pathJoin "d" (entMismatch.content_id ++ ".app"))
      = fsLookup fsPre (pathJoin "d" (entMismatch.content_id ++ ".app")) :=
  have h1 : fsExists fsPre (pathJoin "d" (entMismatch.content_id ++ ".app")) = true := by
    decide
  have h2 : sha256_hash (fsRead fsPre (pathJoin "d" (entMismatch.content_id ++ ".app")))
      ≠ entMismatch.hash := by decide
  ⟨h1, h2, (claimC2_theorem envErr entMismatch "b" "t" "d" true fsPre h1 h2).1,
   (claimC2_theorem envErr entMismatch "b" "t" "d" true fsPre h1 h2).2⟩

/-- Counterexample for C2: `nus.py`'s `process_content` on a pre-existing
file with a digest mismatch (hash checking on, no force) does NOT return
`hash_fail` — it falls through to a re-download; here the download fails
and the outcome is `failed`. -/
theorem claimC2_counterexample :
    fsExists fsPreNus (pathJoin "d" ("t" ++ "_" ++ entMismatch.content_id ++ ".app")) = true
    ∧ sha256_hash
        (fsRead fsPreNus (pathJoin "d" ("t" ++ "_" ++ entMismatch.content_id ++ ".app")))
        ≠ entMismatch.hash
    ∧ (nus_process_content envErr entMismatch "b" "t" "d" false false fsPreNus).1.2.1
        = "failed" := by
  refine ⟨by decide, by decide, by decide⟩

/-- C6: in `process_content`, a fresh download (file absent or force set)
whose body digest differs from the expected digest, with hash checking on,
yields `hash_fail`; the just-downloaded file is removed when `os.remove`
succeeds, and when `os.remove` raises the failure is swallowed and the
status is still `hash_fail` (the status does not depend on `removeFails`);
on a digest match the status is `ok`. -/
theorem claimC6_theorem (env : Env) (entry : ContentEntry)
    (base_url title_id download_dir : String) (force download_h3 : Bool) (fs : FS)
    (status : Nat) (body : ByteBuf)
    (hfresh : fsExists fs (pathJoin download_dir (entry.content_id ++ ".app")) = false
              ∨ force = true)
    (hnet : env.net (base_url ++ entry.content_id) = HttpResult.response status body)
    (hst : status < 400)
    (hw : env.writeFails (pathJoin download_dir (entry.content_id ++ ".app")) = false) :
    (sha256_hash body ≠ entry.hash →
      (process_content env entry base_url title_id download_dir force false download_h3
          fs).1.app_status = "hash_fail"
      ∧ (env.removeFails (pathJoin download_dir (entry.content_id ++ ".app")) = false →
          fsLookup
            (process_content env entry base_url title_id download_dir force false
              download_h3 fs).2
            (pathJoin download_dir (entry.content_id ++ ".app")) = none))
    ∧ (sha256_hash body = entry.hash →
      (process_content env entry base_url title_id download_dir force false download_h3
          fs).1.app_status = "ok") := by
  have hdl : download_file_with_progress env (base_url ++ entry.content_id)
      (pathJoin download_dir (entry.content_id ++ ".app")) fs
      = (true, fsWrite fs (pathJoin download_dir (entry.content_id ++ ".app")) body) := by
    simp only [download_file_with_progress, hnet]
    rw [if_neg (by omega), if_neg (by rintro ⟨h1, -⟩; omega), if_neg (by simp [hw])]
  have hcond : ¬(fsExists fs (pathJoin download_dir (entry.content_id ++ ".app")) = true
      ∧ ¬force = true) := by
    rcases hfresh with h | h
    · rintro ⟨h1, -⟩; rw [h] at h1; exact Bool.noConfusion h1
    · rintro ⟨-, h2⟩; exact h2 h
  have hread : fsRead (fsWrite fs (pathJoin download_dir (entry.content_id ++ ".app")) body)
      (pathJoin download_dir (entry.content_id ++ ".app")) = body := by
    simp [fsRead, fsLookup_write_self]
  constructor
  · intro hmm
    have happ : pcAppPhase env entry (base_url ++ entry.content_id)
        (pathJoin download_dir (entry.content_id ++ ".app")) force false fs
        = ("hash_fail",
           if env.removeFails (pathJoin download_dir (entry.content_id ++ ".app")) then
             fsWrite fs (pathJoin download_dir (entry.content_id ++ ".app")) body
           else
             fsRemove (fsWrite fs (pathJoin download_dir (entry.content_id ++ ".app")) body)
               (pathJoin download_dir (entry.content_id ++ ".app"))) := by
      simp only [pcAppPhase]
      rw [if_neg hcond, hdl]
      rw [if_neg (by simp), if_pos (by simp), hread, if_pos hmm]
    constructor
    · simp only [process_content, happ]
    · intro hrm
      simp only [process_content, happ, hrm]
      rw [pcH3Phase_lookup env entry.content_id base_url title_id download_dir force
          download_h3 _ _
          (app_path_ne_h3_path download_dir entry.content_id title_id entry.content_id)]
      simp only [hrm, Bool.false_eq_true, if_false]
      exact fsLookup_remove_self _ _
  · intro hmatch
    have happ : pcAppPhase env entry (base_url ++ entry.content_id)
        (pathJoin download_dir (entry.content_id ++ ".app")) force false fs
        = ("ok", fsWrite fs (pathJoin download_dir (entry.content_id ++ ".app")) body) := by
      simp only [pcAppPhase]
      rw [if_neg hcond, hdl]
      rw [if_neg (by simp), if_pos (by simp), hread, if_neg (by simp [hmatch])]
    simp only [process_content, happ]

/-- Witness for C6: a fresh download of body `[1]` against expected digest
`"zz"` yields `hash_fail` and the file is removed. -/
theorem claimC6_witness :
    sha256_hash [1] ≠ entMismatch.hash
    ∧ (process_content envOk1 entMismatch "b" "t" "d" false false false
        ([] : FS)).1.app_status = "hash_fail"
    ∧ fsLookup (process_content envOk1 entMismatch "b" "t" "d" false false false
        ([] : FS)).2 (pathJoin "d" (entMismatch.content_id ++ ".app")) = none :=
  have hmm : sha256_hash [1] ≠ entMismatch.hash := by decide
  have main := claimC6_theorem envOk1 entMismatch "b" "t" "d" false false [] 200 [1]
    (Or.inl (by decide)) rfl (by decide) rfl
  ⟨hmm, (main.1 hmm).1, (main.1 hmm).2 rfl⟩

/-- C8 (amended): the digest operation is a pure function of the file
contents (deterministic, hence idempotent on an unmodified file) returning
a 64-character (256-bit) lowercase-hex string; but the comparison used by
`process_content` is EXACT string equality (`==` in Python), not a
case-insensitive comparison — `skipped` is returned iff the digest string
equals the expected string verbatim.  Within the pipeline both sides are
lowercase, so the exact comparison agrees with a case-insensitive one
there; on an uppercase expected digest they disagree — see the
counterexample. -/
theorem claimC8_theorem :
    (∀ d1 d2 : ByteBuf, d1 = d2 → sha256_hash d1 = sha256_hash d2)
    ∧ (∀ data : ByteBuf, (sha256_hash data).length = 64
        ∧ ∀ c ∈ (sha256_hash data).data, c ∈ ("0123456789abcdef" : String).data)
    ∧ (∀ (env : Env) (entry : ContentEntry)
        (base_url title_id download_dir : String) (download_h3 : Bool) (fs : FS),
        fsExists fs (pathJoin download_dir (entry.content_id ++ ".app")) = true →
        ((process_content env entry base_url title_id download_dir false false download_h3
            fs).1.app_status = "skipped"
          ↔ sha256_hash (fsRead fs (pathJoin download_dir (entry.content_id ++ ".app")))
              = entry.hash)) := by
  refine ⟨fun d1 d2 h => congrArg sha256_hash h, fun data => ⟨?_, ?_⟩, ?_⟩
  · simp only [sha256_hash, String.length_append]
    rfl
  · intro c hc
    simp only [sha256_hash, String.data_append, List.mem_append] at hc
    rcases hc with ((((((hc | hc) | hc) | hc) | hc) | hc) | hc) | hc <;>
      exact wordHex_chars _ c hc
  · intro env entry base_url title_id download_dir download_h3 fs hex
    by_cases hm : sha256_hash (fsRead fs (pathJoin download_dir (entry.content_id ++ ".app")))
        = entry.hash
    · have happ : pcAppPhase env entry (base_url ++ entry.content_id)
          (pathJoin download_dir (entry.content_id ++ ".app")) false false fs
          = ("skipped", fs) := by
        simp only [pcAppPhase]
        rw [if_pos ⟨hex, by simp⟩, if_pos (by simp), if_pos hm]
      simp only [process_content, happ]
      exact iff_of_true (by trivial) hm
    · have happ : pcAppPhase env entry (base_url ++ entry.content_id)
          (pathJoin download_dir (entry.content_id ++ ".app")) false false fs
          = ("hash_fail", fs) := by
        simp only [pcAppPhase]
        rw [if_pos ⟨hex, by simp⟩, if_pos (by simp), if_neg hm]
      simp only [process_content, happ]
      exact iff_of_false (by simp) hm

/-- Witness for C8 (amended form): digest length, and the comparison iff at
a concrete pre-existing file. -/
theorem claimC8_witness :
    (sha256_hash []).length = 64
    ∧ fsExists fsPre (pathJoin "d" (entC8.content_id ++ ".app")) = true
    ∧ ((process_content envErr entC8 "b" "t" "d" false false false fsPre).1.app_status
          = "skipped"
        ↔ sha256_hash (fsRead fsPre (pathJoin "d" (entC8.content_id ++ ".app")))
            = entC8.hash) :=
  have hx : fsExists fsPre (pathJoin "d" (entC8.content_id ++ ".app")) = true := by decide
  ⟨(claimC8_theorem.2.1 []).1, hx,
   claimC8_theorem.2.2 envErr entC8 "b" "t" "d" false fsPre hx⟩

set_option maxRecDepth 4000 in
/-- Counterexample for C8: the empty file's digest and the expected digest
in `entC8` denote the same 256-bit value (their case-folds agree), yet
`process_content` reports `hash_fail`, because the comparison is exact
string equality, not case-insensitive. -/
theorem claimC8_counterexample :
    hexCaseFold (sha256_hash (fsRead fsPre (pathJoin "d" (entC8.content_id ++ ".app"))))
      = hexCaseFold entC8.hash
    ∧ sha256_hash (fsRead fsPre (pathJoin "d" (entC8.content_id ++ ".app"))) ≠ entC8.hash
    ∧ (process_content envErr entC8 "b" "t" "d" false false false fsPre).1.app_status
        = "hash_fail" := by
  refine ⟨by decide, by decide, by decide⟩

/-- C7: submitting one task per descriptor produces exactly one outcome
tuple per descriptor; collecting them in ANY completion order (any
permutation) yields the same `TitleStats`, and the four `.app` counters
sum to the number of descriptors, because every `process_content` outcome
carries exactly one of the four counted statuses. -/
theorem claimC7_theorem (env : Env) (base_url title_id download_dir : String)
    (force nohash h3flag : Bool) (tasks : List (ContentEntry × FS))
    (order : List PCResult)
    (hperm : (tasks.map (fun t =>
        (process_content env t.1 base_url title_id download_dir force nohash h3flag
          t.2).1)).Perm order) :
    order.length = tasks.length
    ∧ collectStats h3flag order = collectStats h3flag (tasks.map (fun t =>
        (process_content env t.1 base_url title_id download_dir force nohash h3flag t.2).1))
    ∧ appStatusSum (collectStats h3flag order) = tasks.length := by
  have hmem : ∀ r ∈ tasks.map (fun t =>
      (process_content env t.1 base_url title_id download_dir force nohash h3flag t.2).1),
      r.app_status ∈ appStatusKeys := by
    intro r hr
    obtain ⟨t, -, rfl⟩ := List.mem_map.mp hr
    exact process_content_status_mem env t.1 base_url title_id download_dir force nohash
      h3flag t.2
  have hcol : collectStats h3flag order = collectStats h3flag (tasks.map (fun t =>
      (process_content env t.1 base_url title_id download_dir force nohash h3flag
        t.2).1)) := (foldl_collectStep_perm h3flag hperm stats0).symm
  refine ⟨?_, hcol, ?_⟩
  · rw [← hperm.length_eq, List.length_map]
  · rw [hcol]
    have hsum := appStatusSum_foldl h3flag _ hmem stats0
    rw [collectStats, hsum, List.length_map]
    simp [appStatusSum, stats0]

/-- Witness for C7 at a single-descriptor batch. -/
theorem claimC7_witness :
    ([(entMismatch, fsPre)].map (fun t =>
        (process_content envErr t.1 "b" "t" "d" false false false t.2).1)).Perm
      ([(entMismatch, fsPre)].map (fun t =>
        (process_content envErr t.1 "b" "t" "d" false false false t.2).1))
    ∧ appStatusSum (collectStats false ([(entMismatch, fsPre)].map (fun t =>
        (process_content envErr t.1 "b" "t" "d" false false false t.2).1)))
      = [(entMismatch, fsPre)].length :=
  have hperm := List.Perm.refl ([(entMismatch, fsPre)].map (fun t =>
    (process_content envErr t.1 "b" "t" "d" false false false t.2).1))
  ⟨hperm,
   (claimC7_theorem envErr "b" "t" "d" false false false [(entMismatch, fsPre)] _ hperm).2.2⟩

/-- C9 (amended): `organize_files` copies (never moves) the credential file
`{titleId.lower()}.tik` from the ticket directory into the per-title
subdirectory when present there — the ticket directory is never mutated —
and never raises when it is absent (the model is a total function; absence
is only printed).  However the returned Boolean is `os.path.isfile` of the
destination path, which is `true` iff the subdirectory holds a file of that
name at the end of the call: when the ticket directory lacks the file but
the subdirectory already contained one, it returns `true` although no copy
occurred during the call. -/
theorem claimC9_theorem (title_id : String) (st : OrgState) :
    (organize_files title_id st).2.tickets = st.tickets
    ∧ (∀ d, fsLookup st.tickets (strLower title_id ++ ".tik") = some d →
        (organize_files title_id st).1 = true
        ∧ fsLookup (organize_files title_id st).2.sub (strLower title_id ++ ".tik")
            = some d)
    ∧ (fsLookup st.tickets (strLower title_id ++ ".tik") = none →
        fsLookup (organize_files title_id st).2.sub (strLower title_id ++ ".tik")
          = fsLookup st.sub (strLower title_id ++ ".tik")
        ∧ (organize_files title_id st).1
          = (fsLookup st.sub (strLower title_id ++ ".tik")).isSome) := by
  have htikLast : (strLower title_id ++ ".tik").data.getLast? = some 'k' :=
    getLast?_append_str _ ".tik" (by decide)
  have hmovers : ∀ p ∈ st.downloads.filter
      (fun p => strEndsWith p.1 ".app" || strEndsWith p.1 ".h3"),
      p.1 ≠ strLower title_id ++ ".tik" := by
    intro p hp hteq
    have hpred := (List.mem_filter.mp hp).2
    simp only [Bool.or_eq_true] at hpred
    rcases hpred with h | h
    · have hlast := getLast?_of_strEndsWith h
        (show (".app" : String).data.getLast? = some 'p' by decide)
      rw [hteq, htikLast] at hlast
      exact absurd hlast (by decide)
    · have hlast := getLast?_of_strEndsWith h
        (show (".h3" : String).data.getLast? = some '3' by decide)
      rw [hteq, htikLast] at hlast
      exact absurd hlast (by decide)
  have hsubMoves : fsLookup
      ((st.downloads.filter
        (fun p => strEndsWith p.1 ".app" || strEndsWith p.1 ".h3")).foldl
        (fun s p => fsWrite s p.1 p.2) st.sub) (strLower title_id ++ ".tik")
      = fsLookup st.sub (strLower title_id ++ ".tik") :=
    fsLookup_foldl_write_ne _ _ _ hmovers
  have htmdne : (strLower title_id ++ ".tik") ≠ "title.tmd" :=
    ne_of_data_getLast?_ne (by rw [htikLast]; decide)
  simp only [organize_files]
  cases htk : fsLookup st.tickets (strLower title_id ++ ".tik") with
  | some d =>
    cases htmd : fsLookup (st.downloads.filter
        (fun p => !(strEndsWith p.1 ".app" || strEndsWith p.1 ".h3")))
        (title_id ++ "_tmd") with
    | some dt =>
      simp only [htk, htmd]
      refine ⟨by trivial, ?_, ?_⟩
      · intro d' hd'
        injection hd' with hd'
        subst hd'
        exact ⟨by simp [fsExists, fsLookup_write_self], fsLookup_write_self _ _ _⟩
      · intro hnone; exact Option.noConfusion hnone
    | none =>
      simp only [htk, htmd]
      refine ⟨by trivial, ?_, ?_⟩
      · intro d' hd'
        injection hd' with hd'
        subst hd'
        exact ⟨by simp [fsExists, fsLookup_write_self], fsLookup_write_self _ _ _⟩
      · intro hnone; exact Option.noConfusion hnone
  | none =>
    cases htmd : fsLookup (st.downloads.filter
        (fun p => !(strEndsWith p.1 ".app" || strEndsWith p.1 ".h3")))
        (title_id ++ "_tmd") with
    | some dt =>
      simp only [htk, htmd]
      refine ⟨by trivial, ?_, ?_⟩
      · intro d' hd'; exact Option.noConfusion hd'
      · intro _
        have hlook : fsLookup (fsWrite ((st.downloads.filter
            (fun p => strEndsWith p.1 ".app" || strEndsWith p.1 ".h3")).foldl
            (fun s p => fsWrite s p.1 p.2) st.sub) "title.tmd" dt)
            (strLower title_id ++ ".tik") = fsLookup st.sub (strLower title_id ++ ".tik") := by
          rw [fsLookup_write_ne _ _ _ _ htmdne, hsubMoves]
        exact ⟨hlook, by rw [fsExists, hlook]⟩
    | none =>
      simp only [htk, htmd]
      refine ⟨by trivial, ?_, ?_⟩
      · intro d' hd'; exact Option.noConfusion hd'
      · intro _
        exact ⟨hsubMoves, by rw [fsExists, hsubMoves]⟩

/-- Witness for C9: the ticket exists in the ticket directory; it is copied
into the subdirectory, the ticket directory keeps it, and `true` is
returned. -/
theorem claimC9_witness :
    fsLookup stC9W.tickets (strLower "AB" ++ ".tik") = some [9]
    ∧ (organize_files "AB" stC9W).2.tickets = stC9W.tickets
    ∧ (organize_files "AB" stC9W).1 = true
    ∧ fsLookup (organize_files "AB" stC9W).2.sub (strLower "AB" ++ ".tik") = some [9] :=
  have h : fsLookup stC9W.tickets (strLower "AB" ++ ".tik") = some [9] := by decide
  have main := claimC9_theorem titleAB stC9W
  ⟨h, main.1, (main.2.1 [9] h).1, (main.2.1 [9] h).2⟩

/-- Counterexample for C9: the ticket directory is empty, so no copy can
occur during the call, yet `organize_files` returns `true` because a file
named `ab.tik` already sits in the subdirectory — refuting "returns true if
and only if this copy occurred during the call". -/
theorem claimC9_counterexample :
    fsLookup stC9.tickets (strLower "AB" ++ ".tik") = none
    ∧ (organize_files "AB" stC9).1 = true := by
  refine ⟨by decide, by decide⟩

end WiiUCDN




